import Mathlib

/-!
Shallow embedding of the control-plane core of the `clod` LiDAR ingest
repository, together with proofs about the embedded operations.

The embedding follows the Python sources:
  * `lidar_app/app/repo.py`        — catalog repository (fingerprint, dataset
    versions, ingest-run claim, artifact registration),
  * `lidar_app/app/s3_store.py`    — object-store adapter (`head_object`,
    `safe_segment`, key layout),
  * `application/ingest/...`       — ingest use case, scenario resolver,
  * `lidar_app/app/crs_normalizer` — CRS normalizer (UTM branch in full),
  * `point_cloud/activities/ingest_activities.py` — PENDING reconciler.

Machine integers are modelled as `Nat`/`Int` with explicit `% 2^32` masking
where the SHA-256 arithmetic wraps; Python `None` becomes `Option`; raising
code returns `Except`.
-/

/-! ## Python string primitives -/

/-- Code points that Python's `str.isspace` (and hence `str.strip()` with no
argument) treats as whitespace. -/
def pyIsSpace (c : Char) : Bool :=
  let n := c.toNat
  (9 ≤ n && n ≤ 13) || (28 ≤ n && n ≤ 31) || n = 32 || n = 133 || n = 160 ||
  n = 5760 || (8192 ≤ n && n ≤ 8202) || n = 8232 || n = 8233 || n = 8239 ||
  n = 8287 || n = 12288

/-- Python `str.strip()`: drop leading and trailing whitespace. -/
def pyStrip (s : String) : String :=
  String.mk (((s.data.dropWhile pyIsSpace).reverse.dropWhile pyIsSpace).reverse)

/-- Python `str.strip(ch)`: drop leading and trailing occurrences of `ch`. -/
def pyStripChar (ch : Char) (s : String) : String :=
  String.mk (((s.data.dropWhile (· = ch)).reverse.dropWhile (· = ch)).reverse)

/-- Python `str.lower()` restricted to the ASCII range (the only inputs the
scenario registry receives are ASCII scenario names). -/
def pyLowerChar (c : Char) : Char :=
  if 65 ≤ c.toNat && c.toNat ≤ 90 then Char.ofNat (c.toNat + 32) else c

def pyLower (s : String) : String :=
  String.mk (s.data.map pyLowerChar)

/-- Decimal representation of an `Int`, as Python's `str(int)` prints it. -/
def pyIntStr (n : Int) : String :=
  n.repr

/-! ## JSON serialization (as `json.dumps` with `ensure_ascii=False`,
`separators=(',', ':')` produces it) -/

def hexDigits : List Char := "0123456789abcdef".data

/-- `n` as `width` lowercase hex digits (most significant first). -/
def natToHex : Nat → Nat → List Char
  | 0, _ => []
  | w + 1, v => natToHex w (v / 16) ++ [hexDigits.getD (v % 16) '0']

/-- How `json.dumps` escapes a single character inside a JSON string when
`ensure_ascii=False`: only `"`, `\` and C0 control characters are escaped. -/
def jsonEscapeChar (c : Char) : List Char :=
  if c = '\"' then ['\\', '\"']
  else if c = '\\' then ['\\', '\\']
  else if c.toNat ≥ 32 then [c]
  else if c.toNat = 8 then ['\\', 'b']
  else if c.toNat = 9 then ['\\', 't']
  else if c.toNat = 10 then ['\\', 'n']
  else if c.toNat = 12 then ['\\', 'f']
  else if c.toNat = 13 then ['\\', 'r']
  else '\\' :: 'u' :: natToHex 4 c.toNat

def listConcat : List (List Char) → List Char
  | [] => []
  | l :: ls => l ++ listConcat ls

/-- A JSON string literal for `s`, quotes included. -/
def jsonStr (s : String) : String :=
  String.mk ('\"' :: listConcat (s.data.map jsonEscapeChar) ++ ['\"'])

/-- JSON for `null` / a string. -/
def jsonOptStr : Option String → String
  | none => "null"
  | some s => jsonStr s

/-- JSON for `null` / an integer. -/
def jsonOptInt : Option Int → String
  | none => "null"
  | some n => pyIntStr n

def jsonJoin : List String → String
  | [] => ""
  | [s] => s
  | s :: rest => s ++ "," ++ jsonJoin rest

/-! ## UTF-8 encoding (`str.encode('utf-8')`) -/

def utf8Char (n : Nat) : List Nat :=
  if n < 128 then [n]
  else if n < 2048 then [192 ||| (n >>> 6), 128 ||| (n &&& 63)]
  else if n < 65536 then
    [224 ||| (n >>> 12), 128 ||| ((n >>> 6) &&& 63), 128 ||| (n &&& 63)]
  else
    [240 ||| (n >>> 18), 128 ||| ((n >>> 12) &&& 63),
     128 ||| ((n >>> 6) &&& 63), 128 ||| (n &&& 63)]

def utf8Bytes (s : String) : List Nat :=
  listConcat (s.data.map fun c => (utf8Char c.toNat).map Char.ofNat) |>.map Char.toNat

/-! ## SHA-256 (`hashlib.sha256`), on lists of bytes -/

def mask32 : Nat := 4294967295

def rotr32 (x n : Nat) : Nat :=
  ((x >>> n) ||| (x <<< (32 - n))) &&& mask32

/-- The 64 SHA-256 round constants. -/
def sha256K : List Nat :=
  [1116352408, 1899447441, 3049323471, 3921009573, 961987163,
   1508970993, 2453635748, 2870763221, 3624381080, 310598401,
   607225278, 1426881987, 1925078388, 2162078206, 2614888103,
   3248222580, 3835390401, 4022224774, 264347078, 604807628,
   770255983, 1249150122, 1555081692, 1996064986, 2554220882,
   2821834349, 2952996808, 3210313671, 3336571891, 3584528711,
   113926993, 338241895, 666307205, 773529912, 1294757372,
   1396182291, 1695183700, 1986661051, 2177026350, 2456956037,
   2730485921, 2820302411, 3259730800, 3345764771, 3516065817,
   3600352804, 4094571909, 275423344, 430227734, 506948616,
   659060556, 883997877, 958139571, 1322822218, 1537002063,
   1747873779, 1955562222, 2024104815, 2227730452, 2361852424,
   2428436474, 2756734187, 3204031479, 3329325298]

structure Sha256State where
  a : Nat
  b : Nat
  c : Nat
  d : Nat
  e : Nat
  f : Nat
  g : Nat
  h : Nat
deriving DecidableEq

def sha256Init : Sha256State :=
  ⟨1779033703, 3144134277, 1013904242, 2773480762,
   1359893119, 2600822924, 528734635, 1541459225⟩

def sha256Round (s : Sha256State) (kw : Nat) : Sha256State :=
  let S1 := rotr32 s.e 6 ^^^ rotr32 s.e 11 ^^^ rotr32 s.e 25
  let ch := (s.e &&& s.f) ^^^ ((s.e ^^^ mask32) &&& s.g)
  let t1 := (s.h + S1 + ch + kw) &&& mask32
  let S0 := rotr32 s.a 2 ^^^ rotr32 s.a 13 ^^^ rotr32 s.a 22
  let mj := (s.a &&& s.b) ^^^ (s.a &&& s.c) ^^^ (s.b &&& s.c)
  let t2 := (S0 + mj) &&& mask32
  { a := (t1 + t2) &&& mask32, b := s.a, c := s.b, d := s.c,
    e := (s.d + t1) &&& mask32, f := s.e, g := s.f, h := s.g }

/-- Extend the 16 message words by `n` further scheduled words. -/
def sha256Extend : Nat → List Nat → List Nat
  | 0, acc => acc
  | n + 1, acc =>
    let len := acc.length
    let w15 := acc.getD (len - 15) 0
    let w2 := acc.getD (len - 2) 0
    let s0 := rotr32 w15 7 ^^^ rotr32 w15 18 ^^^ (w15 >>> 3)
    let s1 := rotr32 w2 17 ^^^ rotr32 w2 19 ^^^ (w2 >>> 10)
    sha256Extend n
      (acc ++ [(acc.getD (len - 16) 0 + s0 + acc.getD (len - 7) 0 + s1) &&& mask32])

/-- Big-endian 32-bit words from a list of bytes. -/
def wordsOfBytes : List Nat → List Nat
  | b1 :: b2 :: b3 :: b4 :: rest => (((b1 * 256 + b2) * 256 + b3) * 256 + b4) :: wordsOfBytes rest
  | _ => []

/-- `width` big-endian bytes of `v`. -/
def natToBytesBE : Nat → Nat → List Nat
  | 0, _ => []
  | w + 1, v => natToBytesBE w (v / 256) ++ [v % 256]

/-- SHA-256 padding: `0x80`, zeros, then the bit length as 8 big-endian bytes. -/
def sha256Pad (msg : List Nat) : List Nat :=
  let L := msg.length
  let zeros := (64 - ((L + 9) % 64)) % 64
  msg ++ 128 :: List.replicate zeros 0 ++ natToBytesBE 8 (L * 8)

def sha256Block (s : Sha256State) (block : List Nat) : Sha256State :=
  let w := sha256Extend 48 (wordsOfBytes block)
  let t := (List.zipWith (fun k wi => (k + wi) &&& mask32) sha256K w).foldl sha256Round s
  { a := (s.a + t.a) &&& mask32, b := (s.b + t.b) &&& mask32,
    c := (s.c + t.c) &&& mask32, d := (s.d + t.d) &&& mask32,
    e := (s.e + t.e) &&& mask32, f := (s.f + t.f) &&& mask32,
    g := (s.g + t.g) &&& mask32, h := (s.h + t.h) &&& mask32 }

def sha256Chunks : Nat → List Nat → List (List Nat)
  | 0, _ => []
  | n + 1, l => l.take 64 :: sha256Chunks n (l.drop 64)

def sha256Words (msg : List Nat) : Sha256State :=
  let padded := sha256Pad msg
  (sha256Chunks (padded.length / 64) padded).foldl sha256Block sha256Init

/-- `hashlib.sha256(msg).hexdigest()`. -/
def sha256Hex (msg : List Nat) : String :=
  let s := sha256Words msg
  String.mk (listConcat ([s.a, s.b, s.c, s.d, s.e, s.f, s.g, s.h].map (natToHex 8)))

set_option maxRecDepth 4000 in
example : sha256Hex [] =
    "e3b0c44298fc1c149afbf4c8996fb92427ae41e4649b934ca495991b7852b855" := by decide

set_option maxRecDepth 4000 in
example : sha256Hex (utf8Bytes "abc") =
    "ba7816bf8f01cfea414140de5dae2223b00361a396177a9cb410ff61f20015ad" := by decide

/-! ## String and tuple comparison (Python `<` on `str` and on 3-tuples) -/

/-- Python `<` on strings: lexicographic on code points. -/
def strLt : List Char → List Char → Bool
  | _, [] => false
  | [], _ :: _ => true
  | a :: as, b :: bs =>
    if a.toNat < b.toNat then true
    else if b.toNat < a.toNat then false
    else strLt as bs

/-- Python `<` on `(kind, bucket, key)` tuples: lexicographic. -/
def keyLt (x y : String × String × String) : Bool :=
  if strLt x.1.data y.1.data then true
  else if strLt y.1.data x.1.data then false
  else if strLt x.2.1.data y.2.1.data then true
  else if strLt y.2.1.data x.2.1.data then false
  else strLt x.2.2.data y.2.2.data

theorem strLt_asymm : ∀ a b, strLt a b = true → strLt b a = false
  | _, [], h => by simp [strLt] at h
  | [], _ :: _, _ => by simp [strLt]
  | a :: as, b :: bs, h => by
    simp only [strLt] at h ⊢
    by_cases h1 : a.toNat < b.toNat
    · have : ¬ b.toNat < a.toNat := by omega
      simp [h1, this]
    · by_cases h2 : b.toNat < a.toNat
      · simp [h1, h2] at h
      · simp only [h1, h2, if_false, if_true] at h ⊢
        simp [strLt_asymm as bs h]

theorem strLt_not_not_eq : ∀ a b, strLt a b = false → strLt b a = false → a = b
  | [], [], _, _ => rfl
  | [], _ :: _, h, _ => by simp [strLt] at h
  | _ :: _, [], _, h => by simp [strLt] at h
  | a :: as, b :: bs, h, h' => by
    simp only [strLt] at h h'
    by_cases h1 : a.toNat < b.toNat
    · simp [h1] at h
    · by_cases h2 : b.toNat < a.toNat
      · simp [h1, h2] at h'
      · simp only [h1, h2, if_false] at h h'
        have hab : a = b := by
          have : a.toNat = b.toNat := by omega
          exact Char.eq_of_val_eq (UInt32.eq_of_toBitVec_eq (BitVec.eq_of_toNat_eq this))
        rw [hab, strLt_not_not_eq as bs h h']

theorem strLt_trans : ∀ a b c, strLt a b = true → strLt b c = true → strLt a c = true
  | _, [], _, h, _ => by simp [strLt] at h
  | _, _ :: _, [], _, h => by simp [strLt] at h
  | [], b :: bs, c :: cs, _, _ => by simp [strLt]
  | a :: as, b :: bs, c :: cs, h, h' => by
    simp only [strLt] at h h' ⊢
    by_cases h1 : a.toNat < b.toNat
    · by_cases h2 : b.toNat < c.toNat
      · have : a.toNat < c.toNat := by omega
        simp [this]
      · by_cases h3 : c.toNat < b.toNat
        · simp [h2, h3] at h'
        · have hbc : b.toNat = c.toNat := by omega
          have : a.toNat < c.toNat := by omega
          simp [this]
    · by_cases h2 : b.toNat < a.toNat
      · simp [h1, h2] at h
      · have hab : a.toNat = b.toNat := by omega
        by_cases h3 : b.toNat < c.toNat
        · have : a.toNat < c.toNat := by omega
          simp [this]
        · by_cases h4 : c.toNat < b.toNat
          · simp [h3, h4] at h'
          · have h5 : ¬ a.toNat < c.toNat := by omega
            have h6 : ¬ c.toNat < a.toNat := by omega
            simp only [h1, h2, if_false, if_true] at h
            simp only [h3, h4, if_false, if_true] at h'
            simp only [h5, h6, if_false, if_true]
            exact strLt_trans as bs cs h h'

theorem keyLt_asymm (x y : String × String × String) (h : keyLt x y = true) :
    keyLt y x = false := by
  unfold keyLt at h ⊢
  by_cases h1 : strLt x.1.data y.1.data
  · simp [strLt_asymm _ _ h1, h1]
  · by_cases h2 : strLt y.1.data x.1.data
    · simp [h1, h2] at h
    · simp only [h1, h2, if_false] at h ⊢
      by_cases h3 : strLt x.2.1.data y.2.1.data
      · simp [strLt_asymm _ _ h3, h3]
      · by_cases h4 : strLt y.2.1.data x.2.1.data
        · simp [h3, h4] at h
        · simp only [h3, h4, if_false] at h ⊢
          exact strLt_asymm _ _ h

theorem string_data_inj {a b : String} (h : a.data = b.data) : a = b := by
  cases a; cases b; exact congrArg String.mk h

/-- Two strings neither of which is `strLt` the other are equal. -/
theorem strLt_ff_ff_eq (a b : String) (h : strLt a.data b.data = false)
    (h' : strLt b.data a.data = false) : a = b :=
  string_data_inj (strLt_not_not_eq _ _ h h')

theorem keyLt_not_not_eq (x y : String × String × String)
    (h : keyLt x y = false) (h' : keyLt y x = false) : x = y := by
  unfold keyLt at h h'
  by_cases h1 : strLt x.1.data y.1.data
  · simp [h1] at h
  · by_cases h2 : strLt y.1.data x.1.data
    · simp [h2] at h'
    · simp only [h1, h2, if_false] at h h'
      have e1 : x.1 = y.1 := strLt_ff_ff_eq _ _ (by simpa using h1) (by simpa using h2)
      by_cases h3 : strLt x.2.1.data y.2.1.data
      · simp [h3] at h
      · by_cases h4 : strLt y.2.1.data x.2.1.data
        · simp [h4] at h'
        · simp only [h3, h4, if_false] at h h'
          have e2 : x.2.1 = y.2.1 := strLt_ff_ff_eq _ _ (by simpa using h3) (by simpa using h4)
          have e3 : x.2.2 = y.2.2 := strLt_ff_ff_eq _ _ h h'
          exact Prod.ext e1 (Prod.ext e2 e3)

theorem keyLt_trans (x y z : String × String × String)
    (h : keyLt x y = true) (h' : keyLt y z = true) : keyLt x z = true := by
  unfold keyLt at h h' ⊢
  by_cases h1 : strLt x.1.data y.1.data
  · -- x.1 < y.1; compare y.1 with z.1
    by_cases h3 : strLt y.1.data z.1.data
    · simp [strLt_trans _ _ _ h1 h3]
    · by_cases h4 : strLt z.1.data y.1.data
      · simp [h3, h4] at h'
      · have e : y.1 = z.1 := strLt_ff_ff_eq _ _ (by simpa using h3) (by simpa using h4)
        rw [← e]; simp [h1]
  · by_cases h2 : strLt y.1.data x.1.data
    · simp [h1, h2] at h
    · have e1 : x.1 = y.1 := strLt_ff_ff_eq _ _ (by simpa using h1) (by simpa using h2)
      simp only [h1, h2, if_false] at h
      by_cases h3 : strLt y.1.data z.1.data
      · rw [e1]; simp [h3]
      · by_cases h4 : strLt z.1.data y.1.data
        · simp [h3, h4] at h'
        · simp only [h3, h4, if_false] at h'
          rw [e1] at h1 h2 ⊢
          simp only [h3, h4, if_false]
          -- second component
          by_cases h5 : strLt x.2.1.data y.2.1.data
          · by_cases h6 : strLt y.2.1.data z.2.1.data
            · simp [strLt_trans _ _ _ h5 h6]
            · by_cases h7 : strLt z.2.1.data y.2.1.data
              · simp [h6, h7] at h'
              · have e2 : y.2.1 = z.2.1 := strLt_ff_ff_eq _ _ (by simpa using h6) (by simpa using h7)
                rw [← e2]; simp [h5]
          · by_cases h6 : strLt y.2.1.data x.2.1.data
            · simp [h5, h6] at h
            · have e2 : x.2.1 = y.2.1 := strLt_ff_ff_eq _ _ (by simpa using h5) (by simpa using h6)
              simp only [h5, h6, if_false] at h
              by_cases h7 : strLt y.2.1.data z.2.1.data
              · rw [e2]; simp [h7]
              · by_cases h8 : strLt z.2.1.data y.2.1.data
                · simp [h7, h8] at h'
                · simp only [h7, h8, if_false] at h'
                  rw [e2]
                  simp only [h7, h8, if_false]
                  exact strLt_trans _ _ _ h h'

/-! ## Catalog artifact rows and the raw-input fingerprint
(`lidar_app/app/repo.py`) -/

/-- One row of the `core.artifacts` table (the columns the embedded
operations read). `schema_version = none` marks a raw artifact. -/
structure ArtifactRow where
  id : Nat
  company_id : String
  scan_id : String
  kind : String
  schema_version : Option String
  s3_bucket : String
  s3_key : String
  etag : Option String
  size_bytes : Option Int
  status : String
deriving DecidableEq

/-- The projection `{kind, bucket, key, etag, size_bytes}` taken by
`Repo._fingerprint_raw_inputs`. -/
structure FpItem where
  kind : String
  bucket : String
  key : String
  etag : Option String
  size_bytes : Option Int
deriving DecidableEq

def fpProject (a : ArtifactRow) : FpItem :=
  { kind := a.kind, bucket := a.s3_bucket, key := a.s3_key,
    etag := a.etag, size_bytes := a.size_bytes }

/-- The sort key `lambda x: (x['kind'], x['bucket'], x['key'])`. -/
def fpKey (i : FpItem) : String × String × String :=
  (i.kind, i.bucket, i.key)

/-- Insert into a sorted prefix, after all entries whose key is not greater:
together with `fpSort` this is a stable sort, as Python's `list.sort` is. -/
def fpInsert (x : FpItem) : List FpItem → List FpItem
  | [] => [x]
  | y :: ys => if keyLt (fpKey x) (fpKey y) then x :: y :: ys else y :: fpInsert x ys

/-- `items.sort(key=lambda x: (x['kind'], x['bucket'], x['key']))`. -/
def fpSort (l : List FpItem) : List FpItem :=
  l.foldl (fun acc x => fpInsert x acc) []

/-- `json.dumps` of one projected item with `sort_keys=True` (key order:
bucket, etag, key, kind, size_bytes) and `separators=(',', ':')`. -/
def fpItemJson (i : FpItem) : String :=
  "\x7b\"bucket\":" ++ jsonStr i.bucket ++
  ",\"etag\":" ++ jsonOptStr i.etag ++
  ",\"key\":" ++ jsonStr i.key ++
  ",\"kind\":" ++ jsonStr i.kind ++
  ",\"size_bytes\":" ++ jsonOptInt i.size_bytes ++ "\x7d"

def fpListJson (l : List FpItem) : String :=
  "[" ++ jsonJoin (l.map fpItemJson) ++ "]"

/-- `Repo._fingerprint_raw_inputs`: project, sort by `(kind, bucket, key)`,
serialize as compact JSON with sorted keys, hex SHA-256 of the UTF-8 bytes. -/
def fingerprint_raw_inputs (arts : List ArtifactRow) : String :=
  sha256Hex (utf8Bytes (fpListJson (fpSort (arts.map fpProject))))

/-- `Repo.list_raw_artifacts`: rows of the scan with `schema_version IS NULL`
and `status = 'AVAILABLE'`, in table order. -/
def list_raw_artifacts (db : List ArtifactRow) (scan_id : String) : List ArtifactRow :=
  db.filter fun a => a.scan_id = scan_id && a.schema_version = none && a.status = "AVAILABLE"

/-- `Repo.compute_fingerprint`. -/
def compute_fingerprint (db : List ArtifactRow) (scan_id : String) : String :=
  fingerprint_raw_inputs (list_raw_artifacts db scan_id)

/-! Sorting lemmas for the fingerprint. -/

theorem fpInsert_perm (x : FpItem) : ∀ l : List FpItem, (fpInsert x l).Perm (x :: l)
  | [] => List.Perm.refl _
  | y :: ys => by
    unfold fpInsert
    by_cases h : keyLt (fpKey x) (fpKey y)
    · simp [h]
    · simp only [h, if_false]
      exact ((fpInsert_perm x ys).cons y).trans (List.Perm.swap x y ys)

theorem fpSort_perm_aux :
    ∀ (l acc : List FpItem), (l.foldl (fun acc x => fpInsert x acc) acc).Perm (acc ++ l)
  | [], acc => by simp
  | x :: xs, acc => by
    have h1 := fpSort_perm_aux xs (fpInsert x acc)
    have h2 : (fpInsert x acc ++ xs).Perm (acc ++ x :: xs) :=
      ((fpInsert_perm x acc).append_right xs).trans List.perm_middle.symm
    exact h1.trans h2

theorem fpSort_perm (l : List FpItem) : (fpSort l).Perm l :=
  fpSort_perm_aux l []

/-- The order produced by the sort: `y` before `z` means `¬ key z < key y`. -/
def fpLe (y z : FpItem) : Prop := keyLt (fpKey z) (fpKey y) = false

instance : DecidablePred fun p : FpItem × FpItem => fpLe p.1 p.2 := by
  intro p; unfold fpLe; infer_instance

theorem fpInsert_pairwise (x : FpItem) :
    ∀ l : List FpItem, l.Pairwise fpLe → (fpInsert x l).Pairwise fpLe
  | [], _ => by simp [fpInsert, List.Pairwise]
  | y :: ys, hp => by
    rcases List.pairwise_cons.mp hp with ⟨hy, hys⟩
    unfold fpInsert
    by_cases h : keyLt (fpKey x) (fpKey y)
    · simp only [h, if_true]
      refine List.pairwise_cons.mpr ⟨?_, hp⟩
      intro z hz
      rcases hz with _ | hz
      · exact keyLt_asymm _ _ h
      · -- z ∈ ys, so fpLe y z; x < y gives ¬ z < x
        have hyz : fpLe y z := hy z (by assumption)
        unfold fpLe at hyz ⊢
        by_cases hzx : keyLt (fpKey z) (fpKey x)
        · exact absurd (keyLt_trans _ _ _ hzx h) (by simp [hyz])
        · simpa using hzx
    · simp only [h, if_false]
      refine List.pairwise_cons.mpr ⟨?_, fpInsert_pairwise x ys hys⟩
      intro z hz
      rcases List.mem_cons.mp ((fpInsert_perm x ys).mem_iff.mp hz) with hzx | hzys
      · subst hzx; simpa [fpLe] using h
      · exact hy z hzys

theorem fpSort_pairwise_aux :
    ∀ (l acc : List FpItem), acc.Pairwise fpLe →
      (l.foldl (fun acc x => fpInsert x acc) acc).Pairwise fpLe
  | [], _, h => h
  | x :: xs, acc, h => fpSort_pairwise_aux xs (fpInsert x acc) (fpInsert_pairwise x acc h)

theorem fpSort_pairwise (l : List FpItem) : (fpSort l).Pairwise fpLe :=
  fpSort_pairwise_aux l [] (by simp)

/-- Two sorted lists with the same elements and pairwise-distinct sort keys
are equal. -/
theorem sorted_nodupkeys_perm_eq :
    ∀ l1 l2 : List FpItem, l1.Pairwise fpLe → l2.Pairwise fpLe →
      (l1.map fpKey).Nodup → l1.Perm l2 → l1 = l2
  | [], l2, _, _, _, hperm => (hperm.nil_eq).symm ▸ rfl
  | a :: t1, l2, hp1, hp2, hnd, hperm => by
    match l2, hperm with
    | [], hperm => exact absurd (hperm.symm.nil_eq) (by simp)
    | b :: t2, hperm =>
      rcases List.pairwise_cons.mp hp1 with ⟨ha, hp1t⟩
      rcases List.pairwise_cons.mp hp2 with ⟨hb, hp2t⟩
      by_cases hab : a = b
      · subst hab
        have ht : t1.Perm t2 := hperm.cons_inv
        rw [List.map_cons] at hnd
        rw [sorted_nodupkeys_perm_eq t1 t2 hp1t hp2t (List.nodup_cons.mp hnd).2 ht]
      · -- a ∈ b :: t2 and a ≠ b, so a ∈ t2, so fpLe b a; symmetrically fpLe a b.
        have hamem : a ∈ t2 := by
          rcases List.mem_cons.mp (hperm.mem_iff.mp (List.mem_cons_self a t1)) with h | h
          · exact absurd h hab
          · exact h
        have hbmem : b ∈ t1 := by
          rcases List.mem_cons.mp (hperm.symm.mem_iff.mp (List.mem_cons_self b t2)) with h | h
          · exact absurd h.symm hab
          · exact h
        have h1 : fpLe a b := ha b hbmem
        have h2 : fpLe b a := hb a hamem
        have hkey : fpKey a = fpKey b := keyLt_not_not_eq _ _ h2 h1
        have hmem : fpKey a ∈ t1.map fpKey := by
          rw [hkey]; exact List.mem_map_of_mem fpKey hbmem
        rw [List.map_cons] at hnd
        exact absurd hmem (List.nodup_cons.mp hnd).1

/-- Sorting is invariant under permutation when the sort keys are
pairwise distinct. -/
theorem fpSort_perm_invariant (l1 l2 : List FpItem)
    (hnd : (l1.map fpKey).Nodup) (hperm : l1.Perm l2) :
    fpSort l1 = fpSort l2 := by
  have p1 := fpSort_perm l1
  have p2 := fpSort_perm l2
  have : (fpSort l1).Perm (fpSort l2) := p1.trans (hperm.trans p2.symm)
  exact sorted_nodupkeys_perm_eq _ _ (fpSort_pairwise l1) (fpSort_pairwise l2)
    (by exact ((p1.map fpKey).nodup_iff).mpr hnd) this

/-! ## C1 — fingerprint purity -/

set_option maxRecDepth 8000 in
/-- C1 (counterexample): as stated, the claim is false. `compute_fingerprint`
sorts only by `(kind, bucket, key)` while the serialized records also carry
`etag` and `size_bytes`; Python's sort is stable, so two AVAILABLE raw rows
with equal sort keys but different etags keep their input order and a
reordering of the artifact list changes the hash. -/
theorem compute_fingerprint_order_dependent_on_tied_keys :
    ([⟨1, "co", "s", "raw.point_cloud", none, "b", "k", some "e1", some 1, "AVAILABLE"⟩,
      ⟨2, "co", "s", "raw.point_cloud", none, "b", "k", some "e2", some 2, "AVAILABLE"⟩] :
        List ArtifactRow).Perm
      [⟨2, "co", "s", "raw.point_cloud", none, "b", "k", some "e2", some 2, "AVAILABLE"⟩,
       ⟨1, "co", "s", "raw.point_cloud", none, "b", "k", some "e1", some 1, "AVAILABLE"⟩] ∧
    compute_fingerprint
      [⟨1, "co", "s", "raw.point_cloud", none, "b", "k", some "e1", some 1, "AVAILABLE"⟩,
       ⟨2, "co", "s", "raw.point_cloud", none, "b", "k", some "e2", some 2, "AVAILABLE"⟩] "s" ≠
    compute_fingerprint
      [⟨2, "co", "s", "raw.point_cloud", none, "b", "k", some "e2", some 2, "AVAILABLE"⟩,
       ⟨1, "co", "s", "raw.point_cloud", none, "b", "k", some "e1", some 1, "AVAILABLE"⟩] "s" := by
  constructor
  · exact List.Perm.swap _ _ _
  · decide

/-- C1 (amended): provided the projected records have pairwise-distinct
`(kind, bucket, key)` sort keys, `compute_fingerprint` is a pure function of
the projection of the AVAILABLE raw artifacts: any two databases whose
AVAILABLE raw rows for the scan have permutation-equal projections yield the
same hex SHA-256. -/
theorem compute_fingerprint_pure_of_nodup_keys
    (db1 db2 : List ArtifactRow) (scan_id : String)
    (hperm : ((list_raw_artifacts db1 scan_id).map fpProject).Perm
      ((list_raw_artifacts db2 scan_id).map fpProject))
    (hnd : (((list_raw_artifacts db1 scan_id).map fpProject).map fpKey).Nodup) :
    compute_fingerprint db1 scan_id = compute_fingerprint db2 scan_id := by
  unfold compute_fingerprint fingerprint_raw_inputs
  rw [fpSort_perm_invariant _ _ hnd hperm]

set_option maxRecDepth 8000 in
/-- C1 (witness): the purity theorem applied to two concrete databases that
store the same three raw artifacts in different row orders. -/
theorem compute_fingerprint_pure_witness :
    compute_fingerprint
      [⟨1, "co", "s", "raw.point_cloud", none, "b", "k1", some "e1", some 10, "AVAILABLE"⟩,
       ⟨2, "co", "s", "raw.trajectory", none, "b", "k2", some "e2", some 20, "AVAILABLE"⟩] "s" =
    compute_fingerprint
      [⟨7, "co", "s", "raw.trajectory", none, "b", "k2", some "e2", some 20, "AVAILABLE"⟩,
       ⟨9, "co2", "s2", "raw.other", none, "b", "k9", none, none, "AVAILABLE"⟩,
       ⟨8, "co", "s", "raw.point_cloud", none, "b", "k1", some "e1", some 10, "AVAILABLE"⟩] "s" :=
  compute_fingerprint_pure_of_nodup_keys _ _ "s" (by decide) (by decide)

/-! ## C2 — `Repo.claim_ingest_run` (`lidar_app/app/repo.py`) -/

/-- One row of `core.ingest_runs` (the columns the embedded operations use). -/
structure IngestRunRow where
  id : Nat
  company_id : String
  scan_id : String
  schema_version : String
  input_fingerprint : String
  status : String
deriving DecidableEq

/-- `Repo.claim_ingest_run`: `UPDATE ingest_runs SET status='RUNNING' WHERE
id = run_id AND status = 'QUEUED'`, returning `bool(rowcount)`.  The whole
statement runs in one transaction, so it is modelled as one atomic step. -/
def claim_ingest_run (db : List IngestRunRow) (run_id : Nat) : Bool × List IngestRunRow :=
  let hit := fun r : IngestRunRow => r.id = run_id && r.status = "QUEUED"
  (db.countP hit != 0,
   db.map fun r => if hit r then { r with status := "RUNNING" } else r)

/-- `K` workers attempting `claim_ingest_run` one after the other
(sequential consistency); returns how many were told `true`. -/
def claimRace : Nat → List IngestRunRow → Nat → Nat × List IngestRunRow
  | 0, db, _ => (0, db)
  | k + 1, db, run_id =>
    let first := claim_ingest_run db run_id
    let rest := claimRace k first.2 run_id
    ((if first.1 then 1 else 0) + rest.1, rest.2)

theorem claim_ingest_run_clears (db : List IngestRunRow) (run_id : Nat) :
    (claim_ingest_run db run_id).2.countP
      (fun r => r.id = run_id && r.status = "QUEUED") = 0 := by
  unfold claim_ingest_run
  simp only [List.countP_eq_zero, List.mem_map]
  rintro r ⟨r0, _, rfl⟩
  by_cases h : (r0.id = run_id && r0.status = "QUEUED") = true
  · simp [h]
  · simp [h]

theorem claim_ingest_run_miss (db : List IngestRunRow) (run_id : Nat)
    (h : db.countP (fun r => r.id = run_id && r.status = "QUEUED") = 0) :
    claim_ingest_run db run_id = (false, db) := by
  unfold claim_ingest_run
  rw [List.countP_eq_zero] at h
  simp only [Prod.mk.injEq]
  refine ⟨by simpa using (List.countP_eq_zero.mpr h), ?_⟩
  calc db.map _ = db.map id := List.map_congr_left fun r hr => by simp [h r hr]
    _ = db := List.map_id db

theorem claimRace_none (k : Nat) (db : List IngestRunRow) (run_id : Nat)
    (h : db.countP (fun r => r.id = run_id && r.status = "QUEUED") = 0) :
    claimRace k db run_id = (0, db) := by
  induction k with
  | zero => rfl
  | succ k ih =>
    unfold claimRace
    rw [claim_ingest_run_miss db run_id h]
    simp [ih]

/-- C2: the claim CAS.  `claim_ingest_run` answers `true` exactly when a row
with this id is QUEUED (and then atomically rewrites it to RUNNING); a failed
claim leaves the table untouched; and of `K ≥ 1` sequentially-consistent
claim attempts racing on one QUEUED row, exactly one is told `true`. -/
theorem claim_ingest_run_cas (db : List IngestRunRow) (run_id : Nat) :
    ((claim_ingest_run db run_id).1 = true ↔
      ∃ r ∈ db, r.id = run_id ∧ r.status = "QUEUED") ∧
    ((claim_ingest_run db run_id).1 = false → (claim_ingest_run db run_id).2 = db) ∧
    (∀ K, 1 ≤ K → (∃ r ∈ db, r.id = run_id ∧ r.status = "QUEUED") →
      (claimRace K db run_id).1 = 1) := by
  have hiff : (claim_ingest_run db run_id).1 = true ↔
      ∃ r ∈ db, r.id = run_id ∧ r.status = "QUEUED" := by
    unfold claim_ingest_run
    simp only [bne_iff_ne, ne_eq, ← Nat.pos_iff_ne_zero, List.countP_pos_iff,
      Bool.and_eq_true, decide_eq_true_eq]
  refine ⟨hiff, ?_, ?_⟩
  · intro hfalse
    have h0 : db.countP (fun r => r.id = run_id && r.status = "QUEUED") = 0 := by
      unfold claim_ingest_run at hfalse
      simpa using hfalse
    exact congrArg Prod.snd (claim_ingest_run_miss db run_id h0)
  · intro K hK hex
    match K, hK with
    | k + 1, _ =>
      have h1 : (claim_ingest_run db run_id).1 = true := hiff.mpr hex
      show (if (claim_ingest_run db run_id).1 then 1 else 0) +
        (claimRace k (claim_ingest_run db run_id).2 run_id).1 = 1
      rw [claimRace_none k _ run_id (claim_ingest_run_clears db run_id), h1]
      simp

/-- C2 (witness): three workers race on one QUEUED row; exactly the first
claim succeeds. -/
theorem claim_ingest_run_cas_witness :
    (claim_ingest_run [⟨5, "co", "s", "1.1.0", "fp", "QUEUED"⟩] 5).1 = true ∧
    (claimRace 3 [⟨5, "co", "s", "1.1.0", "fp", "QUEUED"⟩] 5).1 = 1 :=
  ⟨(claim_ingest_run_cas [⟨5, "co", "s", "1.1.0", "fp", "QUEUED"⟩] 5).1.mpr
      ⟨⟨5, "co", "s", "1.1.0", "fp", "QUEUED"⟩, by decide⟩,
   (claim_ingest_run_cas [⟨5, "co", "s", "1.1.0", "fp", "QUEUED"⟩] 5).2.2 3 (by decide)
      ⟨⟨5, "co", "s", "1.1.0", "fp", "QUEUED"⟩, by decide⟩⟩

/-! ## C3 — dataset versions (`Repo.ensure_dataset_version`,
`Repo.bump_dataset_version`) -/

/-- One row of `core.dataset_versions`. -/
structure DatasetVersionRow where
  id : String
  dataset_id : String
  version : Nat
  is_active : Bool
deriving DecidableEq

/-- The rows `SELECT ... WHERE dataset_id = d AND is_active IS TRUE` sees. -/
def activeRows (db : List DatasetVersionRow) (d : String) : List DatasetVersionRow :=
  db.filter fun r => r.dataset_id = d && r.is_active

/-- `Repo.ensure_dataset_version`: return the active version, or create
version 1. `scalar_one_or_none` raises when several rows are active.  The
fresh ULID is passed in as `newId`. -/
def ensure_dataset_version (db : List DatasetVersionRow) (dataset_id newId : String) :
    Except String (DatasetVersionRow × List DatasetVersionRow) :=
  match activeRows db dataset_id with
  | [] =>
    let dv : DatasetVersionRow := ⟨newId, dataset_id, 1, true⟩
    .ok (dv, db ++ [dv])
  | [a] => .ok (a, db)
  | _ => .error "MultipleResultsFound"

/-- `Repo.bump_dataset_version`: select-for-update the active row, flip it to
inactive, insert a new active row with `version = prev + 1` (or `1` when no
row was active), all in one transaction. -/
def bump_dataset_version (db : List DatasetVersionRow) (dataset_id newId : String) :
    Except String (DatasetVersionRow × List DatasetVersionRow) :=
  match activeRows db dataset_id with
  | [] =>
    let dv : DatasetVersionRow := ⟨newId, dataset_id, 1, true⟩
    .ok (dv, db ++ [dv])
  | [a] =>
    let dv : DatasetVersionRow := ⟨newId, dataset_id, a.version + 1, true⟩
    .ok (dv, (db.map fun r => if r.id = a.id then { r with is_active := false } else r) ++ [dv])
  | _ => .error "MultipleResultsFound"

/-- Catalog states reachable from an empty `dataset_versions` table by the
two operations that write it (`newId` is a freshly minted ULID, hence not
yet present). -/
inductive DVReach : List DatasetVersionRow → Prop
  | init : DVReach []
  | ensure (db : List DatasetVersionRow) (d newId : String) (dv : DatasetVersionRow)
      (db' : List DatasetVersionRow) : DVReach db → newId ∉ db.map (·.id) →
      ensure_dataset_version db d newId = .ok (dv, db') → DVReach db'
  | bump (db : List DatasetVersionRow) (d newId : String) (dv : DatasetVersionRow)
      (db' : List DatasetVersionRow) : DVReach db → newId ∉ db.map (·.id) →
      bump_dataset_version db d newId = .ok (dv, db') → DVReach db'

/-- The inductive invariant: primary keys are unique; for every dataset with
at least one version exactly one row is active; and every inactive row's
version is strictly below the active row's version. -/
def DVInv (db : List DatasetVersionRow) : Prop :=
  (db.map (·.id)).Nodup ∧
  ∀ d : String,
    ((db.filter fun r => r.dataset_id = d) ≠ [] → (activeRows db d).length = 1) ∧
    (∀ r ∈ db, r.dataset_id = d → r.is_active = false →
      ∀ a ∈ activeRows db d, r.version < a.version)

theorem mem_activeRows {db : List DatasetVersionRow} {d : String} {r : DatasetVersionRow} :
    r ∈ activeRows db d ↔ r ∈ db ∧ r.dataset_id = d ∧ r.is_active = true := by
  unfold activeRows
  simp [List.mem_filter, and_assoc]

theorem no_rows_of_activeRows_nil {db : List DatasetVersionRow} {d : String}
    (hinv : DVInv db) (h : activeRows db d = []) :
    db.filter (fun r => r.dataset_id = d) = [] := by
  by_contra hne
  have := ((hinv.2 d).1 hne)
  rw [h] at this
  simp at this

theorem id_unique {db : List DatasetVersionRow} (hinv : DVInv db)
    {a r : DatasetVersionRow} (ha : a ∈ db) (hr : r ∈ db) (hid : r.id = a.id) : r = a :=
  List.inj_on_of_nodup_map hinv.1 hr ha hid

/-- Generic: mapping a function that is the identity on every row the filter
could keep does not change the filtered list. -/
theorem filter_map_eq {α : Type} (f : α → α) (p : α → Bool) :
    ∀ db : List α, (∀ r ∈ db, (p r = true ∨ p (f r) = true) → f r = r) →
      (db.map f).filter p = db.filter p
  | [], _ => rfl
  | r :: t, h => by
    have ht := filter_map_eq f p t fun x hx => h x (List.mem_cons_of_mem r hx)
    by_cases hfr : p (f r) = true
    · have heq : f r = r := h r (List.mem_cons_self r t) (Or.inr hfr)
      simp only [List.map_cons, List.filter_cons, heq, ht]
    · have hpr : p r = false := by
        by_contra hc
        have : f r = r := h r (List.mem_cons_self r t) (Or.inl (by simpa using hc))
        rw [this] at hfr
        simp at hfr hc
        exact absurd hfr (by simp [hc])
      simp only [List.map_cons, List.filter_cons, hpr, Bool.false_eq_true, if_false,
        hfr, ht]

/-- Appending a fresh first active version preserves the invariant. -/
theorem DVInv_append_first {db : List DatasetVersionRow} {d newId : String}
    (hinv : DVInv db) (hfresh : newId ∉ db.map (·.id))
    (hempty : activeRows db d = []) :
    DVInv (db ++ [⟨newId, d, 1, true⟩]) := by
  have hnone := no_rows_of_activeRows_nil hinv hempty
  constructor
  · have : (db.map (·.id) ++ [newId]).Nodup := by
      rw [List.nodup_append]
      refine ⟨hinv.1, by simp, ?_⟩
      intro x hx
      simp only [List.mem_singleton]
      intro hc
      exact hfresh (hc ▸ hx)
    simpa using this
  · intro d0
    constructor
    · intro _
      by_cases hd : d0 = d
      · subst hd
        unfold activeRows at hempty ⊢
        rw [List.filter_append, hempty]
        simp
      · unfold activeRows
        rw [List.filter_append]
        have h2 : ([(⟨newId, d, 1, true⟩ : DatasetVersionRow)].filter
            fun r => r.dataset_id = d0 && r.is_active) = [] := by
          simp [Ne.symm hd]
        rw [h2, List.append_nil]
        have hne : db.filter (fun r => r.dataset_id = d0) ≠ [] := by
          intro hc
          have : (db ++ [(⟨newId, d, 1, true⟩ : DatasetVersionRow)]).filter
              (fun r => r.dataset_id = d0) = [] := by
            rw [List.filter_append, hc]
            simp [Ne.symm hd]
          exact ‹(db ++ [(⟨newId, d, 1, true⟩ : DatasetVersionRow)]).filter
              (fun r => r.dataset_id = d0) ≠ []› this
        exact (hinv.2 d0).1 hne
    · intro r hr hrd hrin a ha
      rcases List.mem_append.mp hr with hrdb | hrnew
      · by_cases hd : d0 = d
        · subst hd
          have : r ∈ db.filter (fun r => r.dataset_id = d0) := by
            rw [List.mem_filter]; exact ⟨hrdb, by simp [hrd]⟩
          rw [hnone] at this
          simp at this
        · have ha' : a ∈ activeRows db d0 := by
            rcases mem_activeRows.mp ha with ⟨hadb, had, haact⟩
            rcases List.mem_append.mp hadb with h1 | h1
            · exact mem_activeRows.mpr ⟨h1, had, haact⟩
            · simp at h1
              rw [h1] at had
              exact absurd had.symm hd
          exact (hinv.2 d0).2 r hrdb hrd hrin a ha'
      · simp at hrnew
        rw [hrnew] at hrin
        simp at hrin

/-- Bumping (flip the active row, append the successor version) preserves the
invariant. -/
theorem DVInv_bump {db : List DatasetVersionRow} {d newId : String} {a : DatasetVersionRow}
    (hinv : DVInv db) (hfresh : newId ∉ db.map (·.id))
    (hact : activeRows db d = [a]) :
    DVInv ((db.map fun r => if r.id = a.id then { r with is_active := false } else r) ++
      [⟨newId, d, a.version + 1, true⟩]) := by
  have hamem : a ∈ db ∧ a.dataset_id = d ∧ a.is_active = true :=
    mem_activeRows.mp (hact ▸ List.mem_singleton_self a)
  set f : DatasetVersionRow → DatasetVersionRow :=
    fun r => if r.id = a.id then { r with is_active := false } else r with hf
  have hfid : ∀ r, (f r).id = r.id := by
    intro r
    by_cases h : r.id = a.id <;> simp [hf, h]
  have hfds : ∀ r, (f r).dataset_id = r.dataset_id := by
    intro r
    by_cases h : r.id = a.id <;> simp [hf, h]
  have hfne : ∀ r ∈ db, r ≠ a → f r = r := by
    intro r hr hne
    have : r.id ≠ a.id := fun hc => hne (id_unique hinv hamem.1 hr hc)
    simp [hf, this]
  have hfa : f a = { a with is_active := false } := by simp [hf]
  set dv : DatasetVersionRow := ⟨newId, d, a.version + 1, true⟩ with hdv
  constructor
  · have hids : (db.map f).map (·.id) = db.map (·.id) := by
      rw [List.map_map]
      exact List.map_congr_left fun r _ => hfid r
    have : ((db.map f) ++ [dv]).map (·.id) = db.map (·.id) ++ [newId] := by
      rw [List.map_append, hids]
      rfl
    rw [this, List.nodup_append]
    refine ⟨hinv.1, by simp, ?_⟩
    intro x hx
    simp only [List.mem_singleton]
    intro hc
    exact hfresh (hc ▸ hx)
  · intro d0
    by_cases hd : d0 = d
    · subst hd
      have hactnew : activeRows ((db.map f) ++ [dv]) d0 = [dv] := by
        unfold activeRows
        rw [List.filter_append]
        have h1 : (db.map f).filter (fun r => r.dataset_id = d0 && r.is_active) = [] := by
          rw [List.filter_eq_nil_iff]
          rintro r' hr'
          rcases List.mem_map.mp hr' with ⟨r, hr, rfl⟩
          by_cases hra : r = a
          · subst hra
            simp [hfa]
          · rw [hfne r hr hra]
            intro hc
            simp only [Bool.and_eq_true, decide_eq_true_eq] at hc
            have : r ∈ activeRows db d0 := mem_activeRows.mpr ⟨hr, hc.1, hc.2⟩
            rw [hact] at this
            exact hra (List.mem_singleton.mp this)
        rw [h1]
        simp [hdv]
      constructor
      · intro _
        rw [hactnew]
        rfl
      · intro r hr hrd hrin b hb
        rw [hactnew] at hb
        rw [List.mem_singleton.mp hb]
        rcases List.mem_append.mp hr with hrm | hrdv
        · rcases List.mem_map.mp hrm with ⟨r0, hr0, rfl⟩
          by_cases hra : r0 = a
          · subst hra
            simp [hfa, hdv]
          · rw [hfne r0 hr0 hra] at hrd hrin ⊢
            have := (hinv.2 d0).2 r0 hr0 hrd hrin a (hact ▸ List.mem_singleton_self a)
            simp only [hdv]
            omega
        · rw [List.mem_singleton.mp hrdv] at hrin
          simp [hdv] at hrin
    · -- other datasets are untouched
      have hside : ∀ p : DatasetVersionRow → Bool, (∀ r, p r = true → r.dataset_id = d0) →
          ((db.map f) ++ [dv]).filter p = db.filter p := by
        intro p hp
        rw [List.filter_append]
        have h2 : [dv].filter p = [] := by
          rw [List.filter_eq_nil_iff]
          intro b hb
          rw [List.mem_singleton.mp hb]
          intro hc
          exact hd ((hp dv hc).symm ▸ rfl)
        rw [h2, List.append_nil]
        apply filter_map_eq
        intro r hr hpr
        apply hfne r hr
        intro hra
        subst hra
        rcases hpr with h | h
        · exact hd ((hp _ h).symm.trans hamem.2.1)
        · rw [hfa] at h
          have h2 := hp _ h
          simp at h2
          exact hd (h2.symm.trans hamem.2.1)
      have hactsame : activeRows ((db.map f) ++ [dv]) d0 = activeRows db d0 := by
        unfold activeRows
        apply hside
        intro r h
        simp only [Bool.and_eq_true, decide_eq_true_eq] at h
        exact h.1
      have hdssame : ((db.map f) ++ [dv]).filter (fun r => r.dataset_id = d0) =
          db.filter (fun r => r.dataset_id = d0) := by
        apply hside
        intro r h
        simpa using h
      constructor
      · intro hne
        rw [hactsame]
        exact (hinv.2 d0).1 (by rw [hdssame] at hne; exact hne)
      · intro r hr hrd hrin b hb
        rw [hactsame] at hb
        rcases List.mem_append.mp hr with hrm | hrdv
        · rcases List.mem_map.mp hrm with ⟨r0, hr0, rfl⟩
          by_cases hra : r0 = a
          · subst hra
            rw [hfds] at hrd
            exact absurd (hrd.symm.trans hamem.2.1) hd
          · rw [hfne r0 hr0 hra] at hrd hrin ⊢
            exact (hinv.2 d0).2 r0 hr0 hrd hrin b hb
        · rw [List.mem_singleton.mp hrdv] at hrd
          simp [hdv] at hrd
          exact absurd hrd fun hc => hd hc.symm

theorem DVReach_inv {db : List DatasetVersionRow} (h : DVReach db) : DVInv db := by
  induction h with
  | init =>
    refine ⟨by simp, fun d => ⟨fun hc => absurd rfl hc, by simp⟩⟩
  | ensure db d newId dv db' _ hfresh heq ih =>
    unfold ensure_dataset_version at heq
    revert heq
    cases hcase : activeRows db d with
    | nil =>
      intro heq
      simp only [Except.ok.injEq, Prod.mk.injEq] at heq
      rw [← heq.2]
      exact DVInv_append_first ih hfresh hcase
    | cons a tail =>
      cases tail with
      | nil =>
        intro heq
        simp only [Except.ok.injEq, Prod.mk.injEq] at heq
        rw [← heq.2]
        exact ih
      | cons b tail2 => intro heq; exact absurd heq (by simp)
  | bump db d newId dv db' _ hfresh heq ih =>
    unfold bump_dataset_version at heq
    revert heq
    cases hcase : activeRows db d with
    | nil =>
      intro heq
      simp only [Except.ok.injEq, Prod.mk.injEq] at heq
      rw [← heq.2]
      exact DVInv_append_first ih hfresh hcase
    | cons a tail =>
      cases tail with
      | nil =>
        intro heq
        simp only [Except.ok.injEq, Prod.mk.injEq] at heq
        rw [← heq.2]
        exact DVInv_bump ih hfresh hcase
      | cons b tail2 => intro heq; exact absurd heq (by simp)

/-- After a bump over active row `a`, the new row is the only active row of
its dataset. -/
theorem activeRows_after_bump {db : List DatasetVersionRow} {d newId : String}
    {a : DatasetVersionRow} (hinv : DVInv db) (hact : activeRows db d = [a]) :
    activeRows ((db.map fun r => if r.id = a.id then { r with is_active := false } else r) ++
      [⟨newId, d, a.version + 1, true⟩]) d = [⟨newId, d, a.version + 1, true⟩] := by
  unfold activeRows
  rw [List.filter_append]
  have h1 : (db.map fun r => if r.id = a.id then { r with is_active := false } else r).filter
      (fun r => r.dataset_id = d && r.is_active) = [] := by
    rw [List.filter_eq_nil_iff]
    rintro r' hr'
    rcases List.mem_map.mp hr' with ⟨r, hr, rfl⟩
    by_cases hid : r.id = a.id
    · simp [hid]
    · simp only [hid, if_false]
      intro hc
      simp only [Bool.and_eq_true, decide_eq_true_eq] at hc
      have : r ∈ activeRows db d := mem_activeRows.mpr ⟨hr, hc.1, hc.2⟩
      rw [hact] at this
      exact hid (congrArg (·.id) (List.mem_singleton.mp this))
  rw [h1]
  simp

/-- C3: for every dataset with at least one version exactly one row is
active; every inactive row's version is strictly below the active one's (so
versions increase strictly); and `bump_dataset_version` atomically
deactivates the previously active row and inserts a new active row with
`version = prev + 1` (or `1` when no row was active).  States are those
reachable from an empty table by the two operations that write
`dataset_versions`. -/
theorem dataset_version_active_invariant (db : List DatasetVersionRow) (h : DVReach db) :
    (∀ d, (db.filter fun r => r.dataset_id = d) ≠ [] → (activeRows db d).length = 1) ∧
    (∀ d, ∀ r ∈ db, r.dataset_id = d → r.is_active = false →
      ∀ a ∈ activeRows db d, r.version < a.version) ∧
    (∀ d newId dv db2, newId ∉ db.map (·.id) →
      bump_dataset_version db d newId = .ok (dv, db2) →
      dv.is_active = true ∧ dv.dataset_id = d ∧ activeRows db2 d = [dv] ∧
      ((activeRows db d = [] ∧ dv.version = 1) ∨
       (∃ a, activeRows db d = [a] ∧ dv.version = a.version + 1 ∧
         ∀ r ∈ db2, r.id = a.id → r.is_active = false))) := by
  have hinv := DVReach_inv h
  refine ⟨fun d => (hinv.2 d).1, fun d => (hinv.2 d).2, ?_⟩
  intro d newId dv db2 hfresh heq
  unfold bump_dataset_version at heq
  revert heq
  cases hcase : activeRows db d with
  | nil =>
    intro heq
    simp only [Except.ok.injEq, Prod.mk.injEq] at heq
    obtain ⟨hdv, hdb2⟩ := heq
    subst hdv hdb2
    refine ⟨rfl, rfl, ?_, Or.inl ⟨rfl, rfl⟩⟩
    unfold activeRows at hcase ⊢
    rw [List.filter_append, hcase]
    simp
  | cons a tail =>
    cases tail with
    | nil =>
      intro heq
      simp only [Except.ok.injEq, Prod.mk.injEq] at heq
      obtain ⟨hdv, hdb2⟩ := heq
      subst hdv hdb2
      have haid : a.id ∈ db.map (·.id) := by
        rcases mem_activeRows.mp (hcase ▸ List.mem_singleton_self a) with ⟨hadb, _, _⟩
        exact List.mem_map_of_mem _ hadb
      refine ⟨rfl, rfl, activeRows_after_bump hinv hcase, Or.inr ⟨a, rfl, rfl, ?_⟩⟩
      intro r hr hid
      rcases List.mem_append.mp hr with hrm | hrdv
      · rcases List.mem_map.mp hrm with ⟨r0, _, rfl⟩
        by_cases h0 : r0.id = a.id
        · simp [h0]
        · rw [if_neg h0] at hid
          exact absurd hid h0
      · rw [List.mem_singleton.mp hrdv] at hid ⊢
        have h2 : newId = a.id := hid
        exact absurd (by rw [h2]; exact haid) hfresh
    | cons b tail2 => intro heq; exact absurd heq (by simp)

/-- C3 (witness): starting from an empty table, `ensure_dataset_version`
then `bump_dataset_version` leave dataset "d" with exactly one active row. -/
theorem dataset_version_active_invariant_witness :
    (activeRows [⟨"v1", "d", 1, false⟩, ⟨"v2", "d", 2, true⟩] "d").length = 1 :=
  (dataset_version_active_invariant _
    (DVReach.bump [⟨"v1", "d", 1, true⟩] "d" "v2" ⟨"v2", "d", 2, true⟩ _
      (DVReach.ensure [] "d" "v1" ⟨"v1", "d", 1, true⟩ _ DVReach.init (by simp) rfl)
      (by decide) rfl)).1 "d" (by decide)

/-! ## C4, C5 — the ingest use case (`application/ingest/use_case.py`,
`application/ingest/scenario_resolver.py`,
`infrastructure/ingest/rabbit_adapter.py`) -/

/-- `application.common.contracts.WorkflowStatus`.  `SCENARIO_RESOLVED`
renders the Python enum member `RESOLVED_SCENARIO` (renamed here only for
lexical reasons; it carries the same value). -/
inductive WStatus
  | RECEIVED | VALIDATED | SCENARIO_RESOLVED | STARTING
  | RUNNING | COMPLETED | FAILED | RETRYING
deriving DecidableEq

/-- `application.common.contracts.ErrorCode`. -/
inductive ECode
  | VALIDATION_ERROR | TEMPORAL_START_ERROR | TEMPORAL_EXECUTION_ERROR
deriving DecidableEq

/-- `application.ingest.contracts.ScenarioSpec`. -/
structure ScenarioSpec where
  workflow_name : String
  task_queue : String
  query_name : String
deriving DecidableEq

/-- `scenario_resolver.REGISTRY`, built from `shared.workflows.catalog.INGEST_V1`.-/
def REGISTRY : List ((String × String) × ScenarioSpec) :=
  [(("ingest", "1"), ⟨"Ingest-1", "ingest-queue", "progress"⟩)]

/-- `scenario_resolver.resolve_scenario`: lower/strip the key and look it up;
raise `ValueError` when absent. -/
def resolve_scenario (scenario pipeline_version : String) : Except String ScenarioSpec :=
  let key := (pyLower (pyStrip scenario), pyStrip pipeline_version)
  match REGISTRY.find? (fun e => e.1 = key) with
  | some e => .ok e.2
  | none => .error ("Неподдерживаемый сценарий: " ++ scenario ++ " версии " ++
      pipeline_version ++ " не найден")

/-- `application.ingest.contracts.StartIngestCommand` (the `dataset` payload
is carried opaquely). -/
structure StartIngestCommand where
  workflow_id : String
  scenario : String
  message_version : String
  pipeline_version : String
  dataset : String
deriving DecidableEq

/-- One observable side effect of the use case, in trace order: a write to
the KV status store, a publish on the broker, or a gateway start call. -/
inductive Effect
  | kvSet (workflow_id : String) (status : WStatus)
  | pubStatus (workflow_id : String) (status : WStatus)
  | pubCompleted (workflow_id : String)
  | pubFailed (workflow_id : String) (code : ECode) (retryable : Bool)
  | startWorkflow (workflow_id workflow_name task_queue : String)
deriving DecidableEq

/-- The routing key `RabbitEventPublisher` uses for each published event
(`infrastructure/ingest/rabbit_adapter.py`). -/
def routingKey : Effect → Option String
  | .pubStatus _ _ => some "ingest.status"
  | .pubCompleted _ => some "ingest.complete"
  | .pubFailed _ _ _ => some "ingest.failed"
  | _ => none

/-- Outcomes of the two awaited workflow-engine calls
(`ApplicationError` message on failure). -/
structure TemporalEnv where
  start_result : Except String Unit
  wait_result : Except String Unit

/-- `StartIngestUseCase._push_status`: write the KV store, then publish the
status event. -/
def push_status (cmd : StartIngestCommand) (st : WStatus) : List Effect :=
  [.kvSet cmd.workflow_id st, .pubStatus cmd.workflow_id st]

/-- `StartIngestUseCase.execute` as a trace of effects plus a flag telling
whether it re-raised.  Mirrors the four control paths of the source:
validation failure, workflow-start failure, wait-result failure, success. -/
def execute (env : TemporalEnv) (cmd : StartIngestCommand) : List Effect × Bool :=
  match resolve_scenario cmd.scenario cmd.pipeline_version with
  | .error _ => (push_status cmd .FAILED, true)
  | .ok spec =>
    let tr := push_status cmd .SCENARIO_RESOLVED ++ push_status cmd .STARTING ++
      [.startWorkflow cmd.workflow_id spec.workflow_name spec.task_queue]
    match env.start_result with
    | .error _ =>
      (tr ++ [.kvSet cmd.workflow_id .FAILED,
              .pubFailed cmd.workflow_id .TEMPORAL_START_ERROR true], true)
    | .ok _ =>
      let tr2 := tr ++ push_status cmd .RUNNING
      match env.wait_result with
      | .error _ =>
        (tr2 ++ [.pubFailed cmd.workflow_id .TEMPORAL_EXECUTION_ERROR true], true)
      | .ok _ =>
        (tr2 ++ push_status cmd .COMPLETED ++ [.pubCompleted cmd.workflow_id], false)

/-- The status-store write that should precede each published event: its own
status for a status event, COMPLETED for a completed event, FAILED for a
failed event. -/
def correspondingKv : Effect → Option (String × WStatus)
  | .pubStatus wf s => some (wf, s)
  | .pubCompleted wf => some (wf, .COMPLETED)
  | .pubFailed wf _ _ => some (wf, .FAILED)
  | _ => none

/-- Every published event is preceded in the trace by a KV write of its
corresponding status. -/
def kvPrecedesPublished (tr : List Effect) : Prop :=
  ∀ i : Fin tr.length, ∀ wf s, correspondingKv (tr.get i) = some (wf, s) →
    Effect.kvSet wf s ∈ tr.take i.val

/-- C4 (counterexample): for the unknown scenario `pipeline_version = "999"`
the use case publishes no event at all on routing key `ingest.failed` (in
particular none with `VALIDATION_ERROR`): it only writes FAILED to the KV
store and publishes a FAILED *status* event on `ingest.status`, then raises. -/
theorem unknown_scenario_publishes_no_failed_event :
    (resolve_scenario "ingest" "999").toOption = none ∧
    (execute ⟨.ok (), .ok ()⟩ ⟨"wf-1", "ingest", "0", "999", "ds"⟩).1.countP
      (fun e => routingKey e = some "ingest.failed") = 0 ∧
    (execute ⟨.ok (), .ok ()⟩ ⟨"wf-1", "ingest", "0", "999", "ds"⟩).1 =
      [.kvSet "wf-1" .FAILED, .pubStatus "wf-1" .FAILED] := by
  refine ⟨by decide, by decide, by decide⟩

/-- C4 (amended): for every command whose `(scenario, pipeline_version)` is
not in the registry, the use case writes FAILED to the status store, then
publishes exactly one FAILED status event (routing key `ingest.status`), and
re-raises; it publishes nothing on `ingest.failed` and never calls the
workflow gateway (hence no workflow is started and no scan is created). -/
theorem unknown_scenario_behavior (env : TemporalEnv) (cmd : StartIngestCommand)
    (e : String) (h : resolve_scenario cmd.scenario cmd.pipeline_version = .error e) :
    execute env cmd =
      ([.kvSet cmd.workflow_id .FAILED, .pubStatus cmd.workflow_id .FAILED], true) ∧
    (execute env cmd).1.countP (fun x => routingKey x = some "ingest.failed") = 0 ∧
    (execute env cmd).1.countP
      (fun x => match x with | .startWorkflow _ _ _ => true | _ => false) = 0 := by
  have hex : execute env cmd =
      ([.kvSet cmd.workflow_id .FAILED, .pubStatus cmd.workflow_id .FAILED], true) := by
    unfold execute
    rw [h]
    rfl
  refine ⟨hex, ?_, ?_⟩ <;> rw [hex] <;> simp [routingKey, List.countP_cons]

/-- C4 (witness): the amended behavior at the spec's literal test input. -/
theorem unknown_scenario_behavior_witness :
    execute ⟨.ok (), .ok ()⟩ ⟨"wf-1", "ingest", "0", "999", "ds"⟩ =
      ([.kvSet "wf-1" .FAILED, .pubStatus "wf-1" .FAILED], true) :=
  (unknown_scenario_behavior ⟨.ok (), .ok ()⟩ ⟨"wf-1", "ingest", "0", "999", "ds"⟩
    ("Неподдерживаемый сценарий: ingest версии 999 не найден") rfl).1

/-- C5 (counterexample): when `wait_result` fails, the use case publishes the
TEMPORAL_EXECUTION_ERROR failed event without first writing FAILED to the
status store, so not every published event is preceded by a KV write of its
corresponding status. -/
theorem failed_event_without_kv_write :
    ¬ kvPrecedesPublished
      (execute ⟨.ok (), .error "boom"⟩ ⟨"wf-1", "ingest", "0", "1", "ds"⟩).1 := by
  intro h
  have h7 := h ⟨7, by decide⟩ "wf-1" .FAILED (by decide)
  exact absurd h7 (by decide)

/-- `kvPrecedesPublished` weakened exactly at the wait-failure hole: a
published event is preceded by a KV write of its corresponding status,
except that the TEMPORAL_EXECUTION_ERROR failed event is only preceded by
the KV writes of the earlier statuses, most recently RUNNING. -/
def kvPrecedesPublishedAmended (tr : List Effect) : Prop :=
  ∀ i : Fin tr.length, ∀ wf s, correspondingKv (tr.get i) = some (wf, s) →
    Effect.kvSet wf s ∈ tr.take i.val ∨
    (∃ r, tr.get i = Effect.pubFailed wf ECode.TEMPORAL_EXECUTION_ERROR r ∧
      Effect.kvSet wf WStatus.RUNNING ∈ tr.take i.val)

/-- C5 (amended): in every execution, every status and completed event and
the start-failure failed event are preceded by a KV write of the
corresponding status; the wait-failure failed event is preceded by the KV
write of RUNNING (but not of FAILED). -/
theorem status_written_before_publish (env : TemporalEnv) (cmd : StartIngestCommand) :
    kvPrecedesPublishedAmended (execute env cmd).1 := by
  unfold kvPrecedesPublishedAmended
  cases hres : resolve_scenario cmd.scenario cmd.pipeline_version with
  | error e =>
    have hex : (execute env cmd).1 =
        [.kvSet cmd.workflow_id .FAILED, .pubStatus cmd.workflow_id .FAILED] := by
      unfold execute; rw [hres]; rfl
    rw [hex]
    intro i wf s h
    fin_cases i <;> simp only [correspondingKv, List.get] at h
    all_goals try exact Option.noConfusion h
    all_goals
      simp only [Option.some.injEq, Prod.mk.injEq] at h
    all_goals obtain ⟨rfl, rfl⟩ := h
    all_goals first
      | (left; simp; done)
      | (right; exact ⟨true, rfl, by simp⟩)
  | ok spec =>
    cases hstart : env.start_result with
    | error e =>
      have hex : (execute env cmd).1 =
          [.kvSet cmd.workflow_id .SCENARIO_RESOLVED,
           .pubStatus cmd.workflow_id .SCENARIO_RESOLVED,
           .kvSet cmd.workflow_id .STARTING, .pubStatus cmd.workflow_id .STARTING,
           .startWorkflow cmd.workflow_id spec.workflow_name spec.task_queue,
           .kvSet cmd.workflow_id .FAILED,
           .pubFailed cmd.workflow_id .TEMPORAL_START_ERROR true] := by
        unfold execute; rw [hres, hstart]; rfl
      rw [hex]
      intro i wf s h
      fin_cases i <;> simp only [correspondingKv, List.get] at h
      all_goals try exact Option.noConfusion h
      all_goals
        simp only [Option.some.injEq, Prod.mk.injEq] at h
      all_goals obtain ⟨rfl, rfl⟩ := h
      all_goals first
        | (left; simp; done)
        | (right; exact ⟨true, rfl, by simp⟩)
    | ok _ =>
      cases hwait : env.wait_result with
      | error e =>
        have hex : (execute env cmd).1 =
            [.kvSet cmd.workflow_id .SCENARIO_RESOLVED,
             .pubStatus cmd.workflow_id .SCENARIO_RESOLVED,
             .kvSet cmd.workflow_id .STARTING, .pubStatus cmd.workflow_id .STARTING,
             .startWorkflow cmd.workflow_id spec.workflow_name spec.task_queue,
             .kvSet cmd.workflow_id .RUNNING, .pubStatus cmd.workflow_id .RUNNING,
             .pubFailed cmd.workflow_id .TEMPORAL_EXECUTION_ERROR true] := by
          unfold execute; rw [hres, hstart, hwait]; rfl
        rw [hex]
        intro i wf s h
        fin_cases i <;> simp only [correspondingKv, List.get] at h
        all_goals try exact Option.noConfusion h
        all_goals
          simp only [Option.some.injEq, Prod.mk.injEq] at h
        all_goals obtain ⟨rfl, rfl⟩ := h
        all_goals first
          | (left; simp; done)
          | (right; exact ⟨true, rfl, by simp⟩)
      | ok _ =>
        have hex : (execute env cmd).1 =
            [.kvSet cmd.workflow_id .SCENARIO_RESOLVED,
             .pubStatus cmd.workflow_id .SCENARIO_RESOLVED,
             .kvSet cmd.workflow_id .STARTING, .pubStatus cmd.workflow_id .STARTING,
             .startWorkflow cmd.workflow_id spec.workflow_name spec.task_queue,
             .kvSet cmd.workflow_id .RUNNING, .pubStatus cmd.workflow_id .RUNNING,
             .kvSet cmd.workflow_id .COMPLETED, .pubStatus cmd.workflow_id .COMPLETED,
             .pubCompleted cmd.workflow_id] := by
          unfold execute; rw [hres, hstart, hwait]; rfl
        rw [hex]
        intro i wf s h
        fin_cases i <;> simp only [correspondingKv, List.get] at h
        all_goals try exact Option.noConfusion h
        all_goals
          simp only [Option.some.injEq, Prod.mk.injEq] at h
        all_goals obtain ⟨rfl, rfl⟩ := h
        all_goals first
          | (left; simp; done)
          | (right; exact ⟨true, rfl, by simp⟩)

/-- C5 (witness): the amended precedence property on the concrete
happy-path trace. -/
theorem status_written_before_publish_witness :
    kvPrecedesPublishedAmended
      (execute ⟨.ok (), .ok ()⟩ ⟨"wf-1", "ingest", "0", "1", "ds"⟩).1 :=
  status_written_before_publish ⟨.ok (), .ok ()⟩ ⟨"wf-1", "ingest", "0", "1", "ds"⟩

/-! ## C9, C10 — object store adapter (`lidar_app/app/s3_store.py`) -/

/-- What one `client.head_object` call comes back with: either a response
dict (whose `ETag` / `ContentLength` entries the code reads defensively with
`.get`), or a `ClientError` whose `response["Error"]["Code"]` may be absent. -/
inductive S3HeadOutcome
  | success (etag : Option String) (contentLength : Option Int)
  | clientError (code : Option String)
deriving DecidableEq

/-- `S3Store.head_object`: `(None, None)` when the error code is
`404`/`NoSuchKey`/`NotFound`; re-raise other client errors; otherwise return
the ETag stripped of `"` (when it is a string) and the content length. -/
def head_object (resp : S3HeadOutcome) : Except (Option String) (Option String × Option Int) :=
  match resp with
  | .clientError code =>
    if code = some "404" || code = some "NoSuchKey" || code = some "NotFound"
    then .ok (none, none)
    else .error code
  | .success etag size => .ok (etag.map (pyStripChar '\"'), size)

def S3HeadOutcome.isClientError : S3HeadOutcome → Bool
  | .clientError _ => true
  | .success _ _ => false

/-- C9 (counterexample): `head_object` also returns `(None, None)` on a
successful HEAD whose response carries neither `ETag` nor `ContentLength`,
so `(None, None)` is not returned *exactly* on the three not-found codes. -/
theorem head_object_none_none_without_error :
    head_object (.success none none) = .ok (none, none) ∧
    (S3HeadOutcome.success none none).isClientError = false := by
  exact ⟨rfl, rfl⟩

/-- C9 (amended): `head_object` returns `(None, None)` on the error codes
`404`/`NoSuchKey`/`NotFound` and on a successful response that carries
neither ETag nor ContentLength; it re-raises every other client error; and on
a successful response it returns the ETag stripped of surrounding `"`
together with the content length. -/
theorem head_object_characterization (resp : S3HeadOutcome) :
    (head_object resp = .ok (none, none) ↔
      ((∃ code, resp = .clientError (some code) ∧
        (code = "404" ∨ code = "NoSuchKey" ∨ code = "NotFound")) ∨
       resp = .success none none)) ∧
    (∀ code, resp = .clientError code →
      ¬ (code = some "404" ∨ code = some "NoSuchKey" ∨ code = some "NotFound") →
      head_object resp = .error code) ∧
    (∀ e size, resp = .success (some e) size →
      head_object resp = .ok (some (pyStripChar '\"' e), size)) := by
  refine ⟨?_, ?_, ?_⟩
  · cases resp with
    | clientError code =>
      unfold head_object
      by_cases h : code = some "404" || code = some "NoSuchKey" || code = some "NotFound"
      · simp only [h, if_true]
        constructor
        · intro _
          left
          simp only [Bool.or_eq_true, decide_eq_true_eq] at h
          rcases h with (h | h) | h
          · exact ⟨"404", by rw [h], Or.inl rfl⟩
          · exact ⟨"NoSuchKey", by rw [h], Or.inr (Or.inl rfl)⟩
          · exact ⟨"NotFound", by rw [h], Or.inr (Or.inr rfl)⟩
        · intro _; trivial
      · simp only [h, if_false]
        constructor
        · intro hc; exact absurd hc (by simp)
        · rintro ((⟨c, hc, hcode⟩) | hc)
          · injection hc with hc'
            rw [hc'] at h
            simp only [Bool.or_eq_true, decide_eq_true_eq] at h
            rcases hcode with h1 | h1 | h1 <;> simp [h1] at h
          · exact absurd hc (by simp)
    | success etag size =>
      unfold head_object
      simp only [Except.ok.injEq, Prod.mk.injEq]
      constructor
      · rintro ⟨h1, h2⟩
        right
        cases etag with
        | none => rw [h2]
        | some e => simp at h1
      · rintro (⟨c, hc, _⟩ | hc)
        · exact absurd hc (by simp)
        · injection hc with h1 h2
          rw [h1, h2]
          exact ⟨rfl, rfl⟩
  · rintro code rfl hnot
    have hcond : (code = some "404" || code = some "NoSuchKey" || code = some "NotFound") = false := by
      simp only [Bool.or_eq_false_iff, decide_eq_false_iff_not]
      push_neg at hnot
      exact ⟨⟨hnot.1, hnot.2.1⟩, hnot.2.2⟩
    show (if (code = some "404" || code = some "NoSuchKey" || code = some "NotFound") = true
        then (Except.ok (none, none) : Except (Option String) (Option String × Option Int))
        else .error code) = .error code
    rw [hcond]
    simp
  · rintro e size rfl
    rfl

/-- C9 (witness): the characterization applied to a 404, to another client
error, and to a present object with a quoted ETag. -/
theorem head_object_characterization_witness :
    head_object (.clientError (some "404")) = .ok (none, none) ∧
    head_object (.clientError (some "403")) = .error (some "403") ∧
    head_object (.success (some "\"abc\"") (some 5)) = .ok (some "abc", some 5) :=
  ⟨(head_object_characterization (.clientError (some "404"))).1.mpr
      (Or.inl ⟨"404", rfl, Or.inl rfl⟩),
   (head_object_characterization (.clientError (some "403"))).2.1 (some "403") rfl
      (by simp),
   by
    have := (head_object_characterization (.success (some "\"abc\"") (some 5))).2.2
      "\"abc\"" (some 5) rfl
    rw [this]
    rfl⟩

/-- Characters the key-segment regex `[^a-zA-Z0-9._-]+` leaves alone. -/
def allowedChar (c : Char) : Bool :=
  let n := c.toNat
  (97 ≤ n && n ≤ 122) || (65 ≤ n && n ≤ 90) || (48 ≤ n && n ≤ 57) ||
  c = '.' || c = '_' || c = '-'

/-- `_ALLOWED.sub('_', s)`: replace every maximal run of disallowed
characters with a single `_` (`inRun` records whether the previous character
belonged to such a run). -/
def subRuns : List Char → Bool → List Char
  | [], _ => []
  | c :: rest, inRun =>
    if allowedChar c then c :: subRuns rest false
    else if inRun then subRuns rest true
    else '_' :: subRuns rest true

/-- `s3_store.safe_segment`, with the NFKC normalization of `unicodedata`
taken as an oracle parameter: NFKC-normalize and strip whitespace, collapse
disallowed runs to `_`, strip leading/trailing `_`, defaulting to `"na"`. -/
def safe_segment (nfkc : String → String) (s : String) : String :=
  let t := pyStrip (nfkc s)
  let u := String.mk (subRuns t.data false)
  let v := pyStripChar '_' u
  if v = "" then "na" else v

/-- `s3_store.scan_prefix`: the deterministic object-store prefix. -/
def scan_prefix (nfkc : String → String)
    (company_id dataset_version_id scan_id : String) : String :=
  "tenants/" ++ safe_segment nfkc company_id ++ "/dataset_versions/" ++
  safe_segment nfkc dataset_version_id ++ "/scans/" ++ safe_segment nfkc scan_id

theorem subRuns_all_disallowed :
    ∀ l : List Char, (∀ c ∈ l, allowedChar c = false) →
      (subRuns l true = [] ∧ subRuns l false = if l = [] then [] else ['_'])
  | [], _ => ⟨rfl, rfl⟩
  | c :: rest, h => by
    have hc : allowedChar c = false := h c (List.mem_cons_self c rest)
    have ih := subRuns_all_disallowed rest fun x hx => h x (List.mem_cons_of_mem c hx)
    unfold subRuns
    rw [hc]
    simp only [Bool.false_eq_true, if_false, if_true]
    exact ⟨ih.1, by simp [ih.1]⟩

theorem pyStrip_data_subset (s : String) : ∀ c ∈ (pyStrip s).data, c ∈ s.data := by
  intro c hc
  unfold pyStrip at hc
  simp only [String.data] at hc
  have h1 := (List.dropWhile_sublist (l := (s.data.dropWhile pyIsSpace).reverse)
    (p := pyIsSpace)).subset
  have h2 := (List.dropWhile_sublist (l := s.data) (p := pyIsSpace)).subset
  have := h1 (List.mem_reverse.mp hc)
  exact h2 (List.mem_reverse.mp this)

/-- C10: an input whose NFKC normalization consists only of characters
outside `[A-Za-z0-9._-]` is mapped to the literal segment `"na"`; hence two
such distinct company ids (and likewise dataset-version or scan ids) collide
to the same object-store prefix. -/
theorem safe_segment_all_symbol_na (nfkc : String → String) (s1 s2 dv sc : String)
    (h1n : nfkc s1 = s1) (h2n : nfkc s2 = s2)
    (h1 : ∀ c ∈ s1.data, allowedChar c = false)
    (h2 : ∀ c ∈ s2.data, allowedChar c = false) :
    safe_segment nfkc s1 = "na" ∧ safe_segment nfkc s2 = "na" ∧
    scan_prefix nfkc s1 dv sc = scan_prefix nfkc s2 dv sc := by
  have key : ∀ s, nfkc s = s → (∀ c ∈ s.data, allowedChar c = false) →
      safe_segment nfkc s = "na" := by
    intro s hns hall
    unfold safe_segment
    rw [hns]
    show (if pyStripChar '_' (String.mk (subRuns (pyStrip s).data false)) = "" then "na"
      else pyStripChar '_' (String.mk (subRuns (pyStrip s).data false))) = "na"
    have hsub : ∀ c ∈ (pyStrip s).data, allowedChar c = false :=
      fun c hc => hall c (pyStrip_data_subset s c hc)
    have hsr := (subRuns_all_disallowed (pyStrip s).data hsub).2
    by_cases hnil : (pyStrip s).data = []
    · rw [hsr]
      simp only [hnil, if_true]
      rfl
    · rw [hsr]
      simp only [hnil, if_false]
      rfl
  have k1 := key s1 h1n h1
  have k2 := key s2 h2n h2
  refine ⟨k1, k2, ?_⟩
  unfold scan_prefix
  rw [k1, k2]

/-- C10 (witness): `"!!!"` and `"@@@"` are distinct all-symbol company ids
that both sanitize to `"na"` and produce the same scan prefix. -/
theorem safe_segment_all_symbol_na_witness :
    safe_segment (fun x => x) "!!!" = "na" ∧ safe_segment (fun x => x) "@@@" = "na" ∧
    scan_prefix (fun x => x) "!!!" "dv1" "sc1" =
      scan_prefix (fun x => x) "@@@" "dv1" "sc1" ∧ ("!!!" : String) ≠ "@@@" := by
  have h := safe_segment_all_symbol_na (fun x => x) "!!!" "@@@" "dv1" "sc1"
    rfl rfl (by decide) (by decide)
  exact ⟨h.1, h.2.1, h.2.2, by decide⟩

/-! ## C8 — raw artifact registration (`Repo.register_raw_artifact`,
`Repo.register_artifact`, `Repo.upsert_derived_artifact`) -/

/-- One row of `core.scans` (the columns the embedded operations read). -/
structure ScanRow where
  id : String
  company_id : String
  dataset_id : String
  dataset_version_id : String
  crs_id : String
  status : String
  schema_version : String
deriving DecidableEq

/-- `Repo.register_raw_artifact`: authorize the scan, then insert a row with
`schema_version = NULL` — unconditionally, with no per-(scan, kind)
uniqueness check (and the table has no unique constraint on it). -/
def register_raw_artifact (scans : List ScanRow) (db : List ArtifactRow) (newId : Nat)
    (company_id scan_id kind bucket key : String) (etag : Option String)
    (size_bytes : Option Int) (status : String) : Except String (List ArtifactRow) :=
  match scans.find? (fun sc => sc.id = scan_id) with
  | none => .error ("Scan " ++ scan_id ++ " not found")
  | some sc =>
    if sc.company_id ≠ company_id
    then .error ("Scan " ++ scan_id ++ " does not belong to company " ++ company_id)
    else .ok (db ++
      [⟨newId, company_id, scan_id, kind, none, bucket, key, etag, size_bytes, status⟩])

/-- `Repo.register_artifact`: derived registration; rejects an empty
`schema_version`, then inserts with `schema_version = some _`. -/
def register_artifact (scans : List ScanRow) (db : List ArtifactRow) (newId : Nat)
    (company_id scan_id kind bucket key schema_version : String) (etag : Option String)
    (size_bytes : Option Int) (status : String) : Except String (List ArtifactRow) :=
  if schema_version = ""
  then .error "Schema version must be provided for derived artifacts"
  else
    match scans.find? (fun sc => sc.id = scan_id) with
    | none => .error ("Scan " ++ scan_id ++ " not found")
    | some sc =>
      if sc.company_id ≠ company_id
      then .error ("Scan " ++ scan_id ++ " does not belong to company " ++ company_id)
      else .ok (db ++
        [⟨newId, company_id, scan_id, kind, some schema_version, bucket, key, etag,
          size_bytes, status⟩])

/-- Rewrite the first row matching `p` (SQLAlchemy mutates the single ORM
object returned by `.first()`). -/
def updateFirst {α : Type} (p : α → Bool) (f : α → α) : List α → List α
  | [] => []
  | x :: xs => if p x then f x :: xs else x :: updateFirst p f xs

/-- `Repo.upsert_derived_artifact`: overwrite the row keyed by
`(scan_id, kind, schema_version)` when present, else insert it. -/
def upsert_derived_artifact (db : List ArtifactRow) (newId : Nat)
    (company_id scan_id kind schema_version bucket key : String) (etag : Option String)
    (size_bytes : Option Int) (status : String) : List ArtifactRow :=
  let p := fun a : ArtifactRow =>
    a.scan_id = scan_id && a.kind = kind && a.schema_version = some schema_version
  if db.any p then
    updateFirst p (fun a => { a with
      s3_bucket := bucket
      s3_key := key
      etag := etag
      size_bytes := size_bytes
      status := status }) db
  else
    db ++ [⟨newId, company_id, scan_id, kind, some schema_version, bucket, key, etag,
      size_bytes, status⟩]

/-- How many raw rows (`schema_version IS NULL`) of kind `k` a scan has. -/
def rawKindCount (db : List ArtifactRow) (scan_id kind : String) : Nat :=
  db.countP fun a => a.scan_id = scan_id && a.schema_version = none && a.kind = kind

/-- C8 (counterexample): two `register_raw_artifact` calls with the same scan
and kind happily leave two raw rows of that kind — nothing in the repository
or the schema prevents the duplicate. -/
theorem register_raw_artifact_allows_duplicate_kind :
    register_raw_artifact [⟨"s", "co", "d", "dv", "crs", "CREATED", "1.1.0"⟩]
      [] 1 "co" "s" "raw.point_cloud" "b" "k1" none none "AVAILABLE" =
      .ok [⟨1, "co", "s", "raw.point_cloud", none, "b", "k1", none, none, "AVAILABLE"⟩] ∧
    register_raw_artifact [⟨"s", "co", "d", "dv", "crs", "CREATED", "1.1.0"⟩]
      [⟨1, "co", "s", "raw.point_cloud", none, "b", "k1", none, none, "AVAILABLE"⟩]
      2 "co" "s" "raw.point_cloud" "b" "k2" none none "AVAILABLE" =
      .ok [⟨1, "co", "s", "raw.point_cloud", none, "b", "k1", none, none, "AVAILABLE"⟩,
           ⟨2, "co", "s", "raw.point_cloud", none, "b", "k2", none, none, "AVAILABLE"⟩] ∧
    rawKindCount
      [⟨1, "co", "s", "raw.point_cloud", none, "b", "k1", none, none, "AVAILABLE"⟩,
       ⟨2, "co", "s", "raw.point_cloud", none, "b", "k2", none, none, "AVAILABLE"⟩]
      "s" "raw.point_cloud" = 2 :=
  ⟨rfl, rfl, by decide⟩

theorem countP_updateFirst {α : Type} (p : α → Bool) (f : α → α) (q : α → Bool)
    (hq : ∀ x, q (f x) = q x) : ∀ l : List α, (updateFirst p f l).countP q = l.countP q
  | [] => rfl
  | x :: xs => by
    unfold updateFirst
    by_cases hp : p x
    · simp only [hp, if_true, List.countP_cons, hq]
    · rw [if_neg hp]
      simp only [List.countP_cons, countP_updateFirst p f q hq xs]

/-- C8 (amended): a successful `register_raw_artifact` increases the raw
count of exactly its own `(scan, kind)` by one — so a second call with the
same kind yields a second row and the at-most-one invariant holds only for
operation sequences that register each `(scan, kind)` at most once — while
`register_artifact` and `upsert_derived_artifact` never change any raw
count. -/
theorem register_raw_artifact_counts (scans : List ScanRow) (db db' : List ArtifactRow)
    (newId : Nat) (co scan kind bucket key : String) (etag : Option String)
    (size : Option Int) (st : String)
    (h : register_raw_artifact scans db newId co scan kind bucket key etag size st = .ok db') :
    (rawKindCount db' scan kind = rawKindCount db scan kind + 1) ∧
    (∀ s' k', ¬ (s' = scan ∧ k' = kind) → rawKindCount db' s' k' = rawKindCount db s' k') ∧
    (∀ (db2 db2' : List ArtifactRow) (n : Nat) (c s k b ky sv : String)
      (e : Option String) (sz : Option Int) (stt : String),
      register_artifact scans db2 n c s k b ky sv e sz stt = .ok db2' →
      ∀ s' k', rawKindCount db2' s' k' = rawKindCount db2 s' k') ∧
    (∀ (db2 : List ArtifactRow) (n : Nat) (c s k sv b ky : String)
      (e : Option String) (sz : Option Int) (stt : String),
      ∀ s' k', rawKindCount (upsert_derived_artifact db2 n c s k sv b ky e sz stt) s' k' =
        rawKindCount db2 s' k') := by
  have hdb' : db' = db ++
      [⟨newId, co, scan, kind, none, bucket, key, etag, size, st⟩] := by
    unfold register_raw_artifact at h
    revert h
    cases hfind : scans.find? (fun sc => sc.id = scan) with
    | none => intro h; exact absurd h (by simp)
    | some sc =>
      intro h
      dsimp only at h
      by_cases hco : sc.company_id ≠ co
      · rw [if_pos hco] at h; exact absurd h (by simp)
      · rw [if_neg hco] at h
        injection h with h'
        exact h'.symm
  refine ⟨?_, ?_, ?_, ?_⟩
  · rw [hdb']
    unfold rawKindCount
    rw [List.countP_append]
    simp
  · intro s' k' hne
    rw [hdb']
    unfold rawKindCount
    rw [List.countP_append]
    have : (([⟨newId, co, scan, kind, none, bucket, key, etag, size, st⟩] :
        List ArtifactRow).countP
        fun a => a.scan_id = s' && a.schema_version = none && a.kind = k') = 0 := by
      simp only [List.countP_cons, List.countP_nil]
      have : ¬ (scan = s' ∧ kind = k') := fun hc => hne ⟨hc.1.symm, hc.2.symm⟩
      by_cases h1 : scan = s'
      · have h2 : kind ≠ k' := fun hc => this ⟨h1, hc⟩
        simp [h1, h2]
      · simp [h1]
    rw [this]
    simp
  · intro db2 db2' n c s k b ky sv e sz stt h2 s' k'
    have hdb2' : db2' = db2 ++
        [⟨n, c, s, k, some sv, b, ky, e, sz, stt⟩] := by
      unfold register_artifact at h2
      by_cases hsv : sv = ""
      · rw [if_pos hsv] at h2; exact absurd h2 (by simp)
      · rw [if_neg hsv] at h2
        revert h2
        cases hfind : scans.find? (fun sc => sc.id = s) with
        | none => intro h2; exact absurd h2 (by simp)
        | some sc =>
          intro h2
          dsimp only at h2
          by_cases hco : sc.company_id ≠ c
          · rw [if_pos hco] at h2; exact absurd h2 (by simp)
          · rw [if_neg hco] at h2
            injection h2 with h2'
            exact h2'.symm
    rw [hdb2']
    unfold rawKindCount
    rw [List.countP_append]
    simp
  · intro db2 n c s k sv b ky e sz stt s' k'
    unfold upsert_derived_artifact rawKindCount
    by_cases hany : db2.any fun a =>
        a.scan_id = s && a.kind = k && a.schema_version = some sv
    · rw [if_pos hany]
      apply countP_updateFirst
      intro x
      rfl
    · rw [if_neg hany]
      rw [List.countP_append]
      simp

/-- C8 (witness): registering a point cloud and then a trajectory gives one
raw row of each kind. -/
theorem register_raw_artifact_counts_witness :
    rawKindCount
      ([⟨1, "co", "s", "raw.point_cloud", none, "b", "k1", none, none, "AVAILABLE"⟩,
        ⟨2, "co", "s", "raw.trajectory", none, "b", "k2", none, none, "AVAILABLE"⟩])
      "s" "raw.trajectory" = 1 := by
  have h := register_raw_artifact_counts [⟨"s", "co", "d", "dv", "crs", "CREATED", "1.1.0"⟩]
    [⟨1, "co", "s", "raw.point_cloud", none, "b", "k1", none, none, "AVAILABLE"⟩]
    ([⟨1, "co", "s", "raw.point_cloud", none, "b", "k1", none, none, "AVAILABLE"⟩,
      ⟨2, "co", "s", "raw.trajectory", none, "b", "k2", none, none, "AVAILABLE"⟩])
    2 "co" "s" "raw.trajectory" "b" "k2" none none "AVAILABLE" rfl
  rw [h.1]
  decide

/-! ## C6 — the PENDING reconciler
(`point_cloud/activities/ingest_activities.py`,
`reconcile_pending_ingest_manifests`) -/

/-- Modelled from the spec: `Repo.list_pending_artifacts` is called by the
reconciler but absent from the source tree; per the spec the reconciler reads
the PENDING rows of the given kind, up to `limit`. -/
def list_pending_artifacts (db : List ArtifactRow) (kind : String) (limit : Nat) :
    List ArtifactRow :=
  (db.filter fun a => a.kind = kind && a.status = "PENDING").take limit

/-- The per-row field rewrite of an artifact-status update: set `status`, and
overwrite `etag` / `size_bytes` only when a value is supplied. -/
def applyStatusUpdate (status : String) (etag : Option String) (size_bytes : Option Int)
    (a : ArtifactRow) : ArtifactRow :=
  { a with
    status := status
    etag := match etag with | some e => some e | none => a.etag
    size_bytes := match size_bytes with | some v => some v | none => a.size_bytes }

/-- Modelled from the spec: `Repo.update_artifact_status` is called by the
reconciler but absent from the source tree; per the spec it transitions the
row with the given id, recording the probed etag and size when supplied. -/
def update_artifact_status (db : List ArtifactRow) (artifact_id : Nat) (status : String)
    (etag : Option String) (size_bytes : Option Int) : List ArtifactRow :=
  db.map fun a => if a.id = artifact_id then applyStatusUpdate status etag size_bytes a else a

/-- Python truthiness of `etag and size is not None`: a non-empty etag and a
present size. -/
def pyTruthyEtagSize (etag : Option String) (size : Option Int) : Bool :=
  (match etag with | some e => decide (e ≠ "") | none => false) && size.isSome

/-- The reconciler's loop body over the pending rows: probe with
`head_object`; on `etag and size is not None` mark AVAILABLE with etag/size,
else mark FAILED; a re-raised client error aborts the loop (already-updated
rows stay committed).  Returns the table and whether it raised. -/
def reconcile_go (env : String × String → S3HeadOutcome) :
    List ArtifactRow → List ArtifactRow → List ArtifactRow × Bool
  | [], db => (db, false)
  | art :: rest, db =>
    match head_object (env (art.s3_bucket, art.s3_key)) with
    | .error _ => (db, true)
    | .ok (etag, size) =>
      if pyTruthyEtagSize etag size
      then reconcile_go env rest (update_artifact_status db art.id "AVAILABLE" etag size)
      else reconcile_go env rest (update_artifact_status db art.id "FAILED" none none)

/-- `reconcile_pending_ingest_manifests(limit)`. -/
def reconcile_pending_ingest_manifests (env : String × String → S3HeadOutcome)
    (db : List ArtifactRow) (limit : Nat) : List ArtifactRow × Bool :=
  reconcile_go env (list_pending_artifacts db "derived.ingest_manifest" limit) db

/-- The status/etag/size the reconciler will write for row `a`, given the
probe's outcome (meaningful only when the probe does not raise). -/
def reconcileOutcome (env : String × String → S3HeadOutcome) (a : ArtifactRow) :
    String × Option String × Option Int :=
  match head_object (env (a.s3_bucket, a.s3_key)) with
  | .ok (etag, size) =>
    if pyTruthyEtagSize etag size
    then ("AVAILABLE", etag, size)
    else ("FAILED", none, none)
  | .error _ => ("", none, none)

def getById (db : List ArtifactRow) (i : Nat) : Option ArtifactRow :=
  db.find? fun a => a.id = i

theorem update_preserves_id (st : String) (e : Option String) (v : Option Int)
    (i : Nat) (a : ArtifactRow) :
    (if a.id = i then applyStatusUpdate st e v a else a).id = a.id := by
  by_cases h : a.id = i <;> simp [h, applyStatusUpdate]

theorem getById_update (db : List ArtifactRow) (i j : Nat) (st : String)
    (e : Option String) (v : Option Int) :
    getById (update_artifact_status db i st e v) j =
      (getById db j).map (fun a => if a.id = i then applyStatusUpdate st e v a else a) := by
  unfold getById update_artifact_status
  rw [List.find?_map]
  have hpf : ((fun a : ArtifactRow => decide (a.id = j)) ∘
      fun a => if a.id = i then applyStatusUpdate st e v a else a) =
      fun a : ArtifactRow => decide (a.id = j) := by
    funext a
    simp only [Function.comp_apply, update_preserves_id]
  rw [hpf]

theorem getById_update_ne (db : List ArtifactRow) (i j : Nat) (st : String)
    (e : Option String) (v : Option Int) (hne : j ≠ i) :
    getById (update_artifact_status db i st e v) j = getById db j := by
  rw [getById_update]
  cases hfind : getById db j with
  | none => rfl
  | some r =>
    have hr : r.id = j := by
      have := List.find?_some hfind
      simpa using this
    have : ¬ r.id = i := fun hc => hne (hr ▸ hc ▸ rfl)
    simp [this]

theorem getById_update_eq (db : List ArtifactRow) (i : Nat) (st : String)
    (e : Option String) (v : Option Int) :
    getById (update_artifact_status db i st e v) i =
      (getById db i).map (applyStatusUpdate st e v) := by
  rw [getById_update]
  cases hfind : getById db i with
  | none => rfl
  | some r =>
    have hr : r.id = i := by
      have := List.find?_some hfind
      simpa using this
    simp [hr]

theorem reconcile_go_untouched (env : String × String → S3HeadOutcome) :
    ∀ (pending db : List ArtifactRow) (j : Nat), j ∉ pending.map (·.id) →
      getById (reconcile_go env pending db).1 j = getById db j
  | [], _, _, _ => rfl
  | art :: rest, db, j, hj => by
    have hja : j ≠ art.id := by
      intro hc
      exact hj (by rw [hc]; exact List.mem_map_of_mem _ (List.mem_cons_self art rest))
    have hjr : j ∉ rest.map (·.id) := fun hc =>
      hj (by simpa using Or.inr (by simpa using hc))
    unfold reconcile_go
    cases head_object (env (art.s3_bucket, art.s3_key)) with
    | error e => rfl
    | ok p =>
      obtain ⟨etag, size⟩ := p
      dsimp only
      by_cases hcond : pyTruthyEtagSize etag size
      · rw [if_pos hcond]
        rw [reconcile_go_untouched env rest _ j hjr,
          getById_update_ne db art.id j _ _ _ hja]
      · rw [if_neg hcond]
        rw [reconcile_go_untouched env rest _ j hjr,
          getById_update_ne db art.id j _ _ _ hja]

theorem reconcile_go_spec (env : String × String → S3HeadOutcome) :
    ∀ (pending db : List ArtifactRow),
      (pending.map (·.id)).Nodup →
      (∀ a ∈ pending, ∃ p, head_object (env (a.s3_bucket, a.s3_key)) = .ok p) →
      (reconcile_go env pending db).2 = false ∧
      ∀ a ∈ pending,
        getById (reconcile_go env pending db).1 a.id =
          (getById db a.id).map (applyStatusUpdate (reconcileOutcome env a).1
            (reconcileOutcome env a).2.1 (reconcileOutcome env a).2.2)
  | [], db, _, _ => ⟨rfl, by simp⟩
  | art :: rest, db, hnd, hok => by
    obtain ⟨⟨etag, size⟩, hhead⟩ := hok art (List.mem_cons_self art rest)
    rw [List.map_cons] at hnd
    have hndr : (rest.map (·.id)).Nodup := (List.nodup_cons.mp hnd).2
    have hartid : art.id ∉ rest.map (·.id) := (List.nodup_cons.mp hnd).1
    have hokr : ∀ a ∈ rest, ∃ p, head_object (env (a.s3_bucket, a.s3_key)) = .ok p :=
      fun a ha => hok a (List.mem_cons_of_mem _ ha)
    have hane : ∀ a ∈ rest, a.id ≠ art.id := by
      intro a ha hc
      exact hartid (hc ▸ List.mem_map_of_mem _ ha)
    unfold reconcile_go
    rw [hhead]
    dsimp only
    by_cases hcond : pyTruthyEtagSize etag size
    · rw [if_pos hcond]
      have ih := reconcile_go_spec env rest
        (update_artifact_status db art.id "AVAILABLE" etag size) hndr hokr
      refine ⟨ih.1, ?_⟩
      intro a ha
      rcases List.mem_cons.mp ha with rfl | har
      · rw [reconcile_go_untouched env rest _ a.id hartid, getById_update_eq]
        have hout : reconcileOutcome env a = ("AVAILABLE", etag, size) := by
          unfold reconcileOutcome
          rw [hhead]
          dsimp only
          rw [if_pos hcond]
        rw [hout]
      · rw [ih.2 a har, getById_update_ne db art.id a.id _ _ _ (hane a har)]
    · rw [if_neg hcond]
      have ih := reconcile_go_spec env rest
        (update_artifact_status db art.id "FAILED" none none) hndr hokr
      refine ⟨ih.1, ?_⟩
      intro a ha
      rcases List.mem_cons.mp ha with rfl | har
      · rw [reconcile_go_untouched env rest _ a.id hartid, getById_update_eq]
        have hout : reconcileOutcome env a = ("FAILED", none, none) := by
          unfold reconcileOutcome
          rw [hhead]
          dsimp only
          rw [if_neg hcond]
        rw [hout]
      · rw [ih.2 a har, getById_update_ne db art.id a.id _ _ _ (hane a har)]

theorem getById_of_mem : ∀ {db : List ArtifactRow}, ((db.map (·.id)).Nodup) →
    ∀ {a : ArtifactRow}, a ∈ db → getById db a.id = some a
  | [], _, _, ha => absurd ha (by simp)
  | b :: t, hnd, a, ha => by
    rw [List.map_cons] at hnd
    rcases List.mem_cons.mp ha with rfl | hat
    · unfold getById
      simp [List.find?]
    · have hbne : b.id ≠ a.id := by
        intro hc
        exact (List.nodup_cons.mp hnd).1 (hc ▸ List.mem_map_of_mem _ hat)
      unfold getById
      rw [List.find?_cons_of_neg _ (by simpa using hbne)]
      exact getById_of_mem (List.nodup_cons.mp hnd).2 hat

/-- C6 (counterexample): a PENDING row whose object is *present* (the HEAD
succeeds) but whose reported ETag is the empty string `""` is transitioned to
FAILED, not AVAILABLE: the reconciler's guard is Python truthiness
(`if etag and size is not None`), not presence. -/
theorem reconcile_marks_present_object_failed :
    head_object (S3HeadOutcome.success (some "\"\"") (some 5)) = .ok (some "", some 5) ∧
    (reconcile_pending_ingest_manifests (fun _ => .success (some "\"\"") (some 5))
      [⟨1, "co", "s", "derived.ingest_manifest", some "1.1.0", "b", "k", none, none,
        "PENDING"⟩] 100).1 =
      [⟨1, "co", "s", "derived.ingest_manifest", some "1.1.0", "b", "k", none, none,
        "FAILED"⟩] := by
  constructor
  · rfl
  · decide

theorem pyTruthyEtagSize_iff (etag : Option String) (size : Option Int) :
    pyTruthyEtagSize etag size = true ↔ ∃ e v, etag = some e ∧ e ≠ "" ∧ size = some v := by
  unfold pyTruthyEtagSize
  cases etag with
  | none => simp
  | some e =>
    cases size with
    | none => simp
    | some v =>
      constructor
      · intro h
        simp only [Bool.and_eq_true] at h
        exact ⟨e, v, rfl, by simpa using h.1, rfl⟩
      · rintro ⟨e', v', he, hne, hv⟩
        injection he with he'
        subst he'
        simp [hne]

/-- C6 (amended): when every probe answers (no re-raised client error), the
reconciler processes each PENDING `derived.ingest_manifest` row within the
limit, every processed row ends in AVAILABLE or FAILED, and per row the
outcome is exact: the row is AVAILABLE — with the probed etag and size
recorded — if and only if the probe returned a non-empty etag together with
a size, and FAILED if and only if it did not (in particular when the object
is absent, i.e. the probe returned `(None, None)`).
`list_pending_artifacts` / `update_artifact_status` are spec-modelled. -/
theorem reconcile_heals_pending (env : String × String → S3HeadOutcome)
    (db : List ArtifactRow) (limit : Nat)
    (hnodup : (db.map (·.id)).Nodup)
    (hok : ∀ a ∈ list_pending_artifacts db "derived.ingest_manifest" limit,
      ∃ p, head_object (env (a.s3_bucket, a.s3_key)) = .ok p) :
    (reconcile_pending_ingest_manifests env db limit).2 = false ∧
    ∀ a ∈ list_pending_artifacts db "derived.ingest_manifest" limit,
      ∃ r, getById (reconcile_pending_ingest_manifests env db limit).1 a.id = some r ∧
        (r.status = "AVAILABLE" ∨ r.status = "FAILED") ∧
        ∀ etag size, head_object (env (a.s3_bucket, a.s3_key)) = .ok (etag, size) →
          ((r.status = "AVAILABLE" ↔ ∃ e v, etag = some e ∧ e ≠ "" ∧ size = some v) ∧
           (r.status = "AVAILABLE" → r.etag = etag ∧ r.size_bytes = size) ∧
           (r.status = "FAILED" ↔ ¬ ∃ e v, etag = some e ∧ e ≠ "" ∧ size = some v)) := by
  have hsub : list_pending_artifacts db "derived.ingest_manifest" limit |>.Sublist db :=
    (List.take_sublist _ _).trans (List.filter_sublist db)
  have hndp : ((list_pending_artifacts db "derived.ingest_manifest" limit).map
      (·.id)).Nodup := (hsub.map (·.id)).nodup hnodup
  have spec := reconcile_go_spec env
    (list_pending_artifacts db "derived.ingest_manifest" limit) db hndp hok
  refine ⟨spec.1, ?_⟩
  intro a ha
  have hadb : a ∈ db := hsub.subset ha
  have hget : getById db a.id = some a := getById_of_mem hnodup hadb
  have hfin := spec.2 a ha
  rw [hget] at hfin
  simp only [Option.map_some'] at hfin
  obtain ⟨⟨etag, size⟩, hhead⟩ := hok a ha
  by_cases hcond : pyTruthyEtagSize etag size
  · obtain ⟨e, v, rfl, hne, rfl⟩ := (pyTruthyEtagSize_iff etag size).mp hcond
    have hout : reconcileOutcome env a = ("AVAILABLE", some e, some v) := by
      unfold reconcileOutcome
      rw [hhead]
      dsimp only
      rw [if_pos hcond]
    rw [hout] at hfin
    refine ⟨_, hfin, Or.inl rfl, ?_⟩
    intro etag' size' hh'
    obtain ⟨he, hv⟩ : some e = etag' ∧ some v = size' := by
      have := hhead.symm.trans hh'
      simpa using this
    subst he hv
    refine ⟨iff_of_true rfl ⟨e, v, rfl, hne, rfl⟩, fun _ => ⟨rfl, rfl⟩, ?_⟩
    exact iff_of_false (by simp [applyStatusUpdate])
      (not_not_intro ⟨e, v, rfl, hne, rfl⟩)
  · have hout : reconcileOutcome env a = ("FAILED", none, none) := by
      unfold reconcileOutcome
      rw [hhead]
      dsimp only
      rw [if_neg hcond]
    rw [hout] at hfin
    refine ⟨_, hfin, Or.inr rfl, ?_⟩
    intro etag' size' hh'
    obtain ⟨he, hv⟩ : etag = etag' ∧ size = size' := by
      have := hhead.symm.trans hh'
      simpa using this
    subst he hv
    have hnex : ¬ ∃ e v, etag = some e ∧ e ≠ "" ∧ size = some v :=
      fun hex => hcond ((pyTruthyEtagSize_iff etag size).mpr hex)
    refine ⟨iff_of_false (by simp [applyStatusUpdate]) hnex, ?_,
      iff_of_true rfl hnex⟩
    intro hc
    exact absurd hc (by simp [applyStatusUpdate])

/-- C6 (witness): one PENDING manifest row whose object is present with a
real ETag is reconciled without error and healed to AVAILABLE with the
probed etag and size recorded. -/
theorem reconcile_heals_pending_witness :
    (reconcile_pending_ingest_manifests (fun _ => .success (some "\"abc\"") (some 7))
      [⟨1, "co", "s", "derived.ingest_manifest", some "1.1.0", "b", "k", none, none,
        "PENDING"⟩] 100).2 = false ∧
    (∃ r, getById (reconcile_pending_ingest_manifests
        (fun _ => .success (some "\"abc\"") (some 7))
        [⟨1, "co", "s", "derived.ingest_manifest", some "1.1.0", "b", "k", none, none,
          "PENDING"⟩] 100).1 1 = some r ∧
      r.status = "AVAILABLE" ∧ r.etag = some "abc" ∧ r.size_bytes = some 7) := by
  have h := reconcile_heals_pending (fun _ => .success (some "\"abc\"") (some 7))
    [⟨1, "co", "s", "derived.ingest_manifest", some "1.1.0", "b", "k", none, none,
      "PENDING"⟩] 100 (by decide)
    (fun _ _ => ⟨(some "abc", some 7), rfl⟩)
  obtain ⟨r, hr, _, hspec⟩ := h.2
    ⟨1, "co", "s", "derived.ingest_manifest", some "1.1.0", "b", "k", none, none,
      "PENDING"⟩ (by decide)
  have hh := hspec (some "abc") (some 7) rfl
  have hav : r.status = "AVAILABLE" := hh.1.mpr ⟨"abc", 7, rfl, by decide, rfl⟩
  exact ⟨h.1, r, hr, hav, (hh.2.1 hav).1, (hh.2.1 hav).2⟩

/-! ## C7 — CRS normalizer (`lidar_app/app/crs_normalizer/core.py`,
`lidar_app/app/crs_normalizer/models.py`).  The PROJ oracle
(`pyproj.CRS.from_epsg/from_wkt/from_json`) and the МСК PROJJSON assembly are
abstracted as total function parameters; Python floats are carried as `Rat`
(the UTM branch performs no float arithmetic). -/

inductive CcrsType | latlon | projection
deriving DecidableEq

inductive CrsDatum | WGS84 | CGCS2000 | PZ90 | SK42 | SK95
deriving DecidableEq

inductive ZMode | ellipsoidal | orthometric
deriving DecidableEq

inductive CrsAxisOrder | XYZ | ENU | NED
deriving DecidableEq

/-- `Literal['UTM', 'GK', 'МСК']` — `MSK` renders the Cyrillic `МСК`. -/
inductive ZoneFamily | UTM | GK | MSK
deriving DecidableEq

inductive Hemisphere | N | S
deriving DecidableEq

inductive MskVariant | calc | gost
deriving DecidableEq

/-- `Literal['position_vector']`. -/
inductive HelmertConv | position_vector
deriving DecidableEq

inductive CrsSource | epsg | wkt | projjson | custom
deriving DecidableEq

inductive CrsUnits | metre | degree
deriving DecidableEq

/-- `models.CRSCustom` (pydantic-validated custom descriptor). -/
structure CRSCustom where
  ccrs_type : CcrsType
  datum : CrsDatum
  z_mode : ZMode
  axis_order : CrsAxisOrder
  geoid_model : Option String := none
  zone_family : Option ZoneFamily := none
  utm_zone : Option Int := none
  utm_hemisphere : Option Hemisphere := none
  gk_width : Option Int := none
  gk_number : Option Int := none
  lon_0 : Option Rat := none
  lat_0 : Option Rat := none
  k0 : Option Rat := none
  x_0 : Option Rat := none
  y_0 : Option Rat := none
  msk_region : Option Int := none
  msk_zone : Option Int := none
  msk_variant : Option MskVariant := none
  towgs84 : Option String := none
  helmert_convention : Option HelmertConv := none
deriving DecidableEq

/-- The tagged union `CRSSpec` over `crs_source`. -/
inductive CRSSpec
  | epsg (epsg_code : Int)
  | wkt (wkt_str : String)
  | projjson (projjson_str : String)
  | custom (c : CRSCustom)
deriving DecidableEq

/-- `core.NormalizedCRS`. -/
structure NormalizedCRS where
  crs_source : CrsSource
  epsg_code : Option Int := none
  wkt_str : Option String := none
  projjson_str : Option String := none
  ccrs_type : Option CcrsType := none
  datum : Option CrsDatum := none
  z_mode : Option ZMode := none
  axis_order : Option CrsAxisOrder := none
  geoid_model : Option String := none
  zone_family : Option ZoneFamily := none
  utm_zone : Option Int := none
  utm_hemisphere : Option Hemisphere := none
  lon_0 : Option Rat := none
  lat_0 : Option Rat := none
  k0 : Option Rat := none
  x_0 : Option Rat := none
  y_0 : Option Rat := none
  msk_region : Option Int := none
  msk_zone : Option Int := none
  msk_variant : Option MskVariant := none
  towgs84 : Option String := none
  helmert_convention : Option HelmertConv := none
  units : Option CrsUnits := none
  built_crs_projjson : Option String := none
deriving DecidableEq

/-- `msk_presets.MSKRegionPreset` (zone table plus optional GOST towgs84). -/
structure MSKZonePreset where
  lon_0 : Rat
  x_0 : Rat
  y_0 : Rat
deriving DecidableEq

structure MSKRegionPreset where
  gost_towgs84 : Option String := none
  zones : List (Int × MSKZonePreset) := []
deriving DecidableEq

/-- The `z_mode='orthometric' requires geoid_model` guard (`if not
crs_spec.geoid_model` — Python truthiness, so `""` also fails). -/
def geoidCheck (c : CRSCustom) : Except String (Option String) :=
  match c.z_mode with
  | .orthometric =>
    match c.geoid_model with
    | some g => if g = "" then .error "z_mode='orthometric' requires geoid_model"
        else .ok (some g)
    | none => .error "z_mode='orthometric' requires geoid_model"
  | .ellipsoidal => .ok none

/-- The МСК tail of `normalize_crs_spec` (preset lookup, parameter
defaulting, GOST Helmert checks; `mskProjJson lon x y lat k tow?` stands for
`json.dumps` of `_build_msk_projected_projjson`, optionally wrapped by
`_wrap_boundcrs_with_towgs84`; the 7-component count check of
`_parse_towgs84_7` is kept, float parsing is assumed to succeed). -/
def normalizeMsk (fromJson : String → String)
    (mskProjJson : Rat → Rat → Rat → Rat → Rat → Option String → String)
    (msk_presets : List (Int × MSKRegionPreset)) (c : CRSCustom)
    (geoid : Option String) : Except String NormalizedCRS :=
  if c.datum ≠ .SK42 then .error "МСК requires datum='SK42'"
  else
    match c.msk_region, c.msk_zone, c.msk_variant with
    | some region, some zone, some variant =>
      match (msk_presets.find? (fun e => e.1 = region)).map (·.2) with
      | none => .error "No preset for MSK region"
      | some reg =>
        match (reg.zones.find? (fun e => e.1 = zone)).map (·.2) with
        | none => .error "No preset for MSK region zone"
        | some zp =>
          let lon_0 := c.lon_0.getD zp.lon_0
          let x_0 := c.x_0.getD zp.x_0
          let y_0 := c.y_0.getD zp.y_0
          let lat_0 := c.lat_0.getD 0
          let k0 := c.k0.getD 1
          match variant with
          | .calc =>
            .ok { crs_source := .custom, ccrs_type := some .projection,
                  datum := some c.datum, z_mode := some c.z_mode,
                  axis_order := some c.axis_order, geoid_model := geoid,
                  units := some .metre, zone_family := some .MSK,
                  lon_0 := some lon_0, lat_0 := some lat_0, k0 := some k0,
                  x_0 := some x_0, y_0 := some y_0,
                  msk_region := some region, msk_zone := some zone,
                  msk_variant := some .calc,
                  built_crs_projjson :=
                    some (fromJson (mskProjJson lon_0 x_0 y_0 lat_0 k0 none)) }
          | .gost =>
            match c.helmert_convention with
            | none => .error "model: msk_variant='gost' requires helmert_convention='position_vector'"
            | some .position_vector =>
              let tow := match c.towgs84 with
                | some t => if t = "" then reg.gost_towgs84 else some t
                | none => reg.gost_towgs84
              match tow with
              | none => .error "model: msk_variant='gost' requires towgs84 (or preset)"
              | some t =>
                if t = "" then .error "model: msk_variant='gost' requires towgs84 (or preset)"
                else if (t.split (· = ',')).length ≠ 7
                then .error "towgs84 must contain 7 numbers: dx,dy,dz,rx,ry,rz,ds"
                else
                  .ok { crs_source := .custom, ccrs_type := some .projection,
                        datum := some c.datum, z_mode := some c.z_mode,
                        axis_order := some c.axis_order, geoid_model := geoid,
                        units := some .metre, zone_family := some .MSK,
                        lon_0 := some lon_0, lat_0 := some lat_0, k0 := some k0,
                        x_0 := some x_0, y_0 := some y_0,
                        msk_region := some region, msk_zone := some zone,
                        msk_variant := some .gost, towgs84 := some t,
                        helmert_convention := some .position_vector,
                        built_crs_projjson :=
                          some (fromJson (mskProjJson lon_0 x_0 y_0 lat_0 k0 (some t))) }
    | _, _, _ => .error "МСК requires msk_region, msk_zone, msk_variant"

/-- `core.normalize_crs_spec`, with the PROJ oracle passed in. -/
def normalize_crs_spec (fromEpsg : Int → String) (fromWkt : String → String)
    (fromJson : String → String)
    (mskProjJson : Rat → Rat → Rat → Rat → Rat → Option String → String)
    (msk_presets : List (Int × MSKRegionPreset)) :
    CRSSpec → Except String NormalizedCRS
  | .epsg code =>
    .ok { crs_source := .epsg, epsg_code := some code,
          built_crs_projjson := some (fromEpsg code) }
  | .wkt w =>
    .ok { crs_source := .wkt, wkt_str := some w,
          built_crs_projjson := some (fromWkt w) }
  | .projjson pj =>
    .ok { crs_source := .projjson, projjson_str := some pj,
          built_crs_projjson := some (fromJson pj) }
  | .custom c =>
    match geoidCheck c with
    | .error e => .error e
    | .ok geoid =>
      match c.ccrs_type with
      | .latlon =>
        match c.datum with
        | .WGS84 =>
          .ok { crs_source := .custom, ccrs_type := some .latlon,
                datum := some c.datum, z_mode := some c.z_mode,
                axis_order := some c.axis_order, geoid_model := geoid,
                units := some .degree, built_crs_projjson := some (fromEpsg 4326) }
        | .CGCS2000 =>
          .ok { crs_source := .custom, ccrs_type := some .latlon,
                datum := some c.datum, z_mode := some c.z_mode,
                axis_order := some c.axis_order, geoid_model := geoid,
                units := some .degree, built_crs_projjson := some (fromEpsg 4490) }
        | .SK42 =>
          .ok { crs_source := .custom, ccrs_type := some .latlon,
                datum := some c.datum, z_mode := some c.z_mode,
                axis_order := some c.axis_order, geoid_model := geoid,
                units := some .degree, built_crs_projjson := some (fromEpsg 4284) }
        | _ => .error "custom latlon datum not supported in current model without wkt/projjson"
      | .projection =>
        match c.zone_family with
        | none => .error "projection requires zone_family"
        | some .UTM =>
          if c.datum ≠ .WGS84
          then .error "UTM current model supports only datum='WGS84' (EPSG:326/327)"
          else
            match c.utm_zone, c.utm_hemisphere with
            | some z, some h =>
              if 1 ≤ z ∧ z ≤ 60 then
                .ok { crs_source := .custom, ccrs_type := some .projection,
                      datum := some c.datum, z_mode := some c.z_mode,
                      axis_order := some c.axis_order, geoid_model := geoid,
                      units := some .metre, zone_family := some .UTM,
                      utm_zone := some z, utm_hemisphere := some h,
                      built_crs_projjson :=
                        some (fromEpsg (if h = .N then 32600 + z else 32700 + z)) }
              else .error "utm_zone must be 1..60"
            | _, _ => .error "UTM requires utm_zone and utm_hemisphere"
        | some .GK => .error "GK current model not supported yet"
        | some .MSK => normalizeMsk fromJson mskProjJson msk_presets c geoid

/-- The pydantic `Literal['N', 'S']` validation of `utm_hemisphere`
(`models.CRSCustom`): any other string is rejected. -/
def parseHemisphere : Option String → Except String (Option Hemisphere)
  | none => .ok none
  | some s =>
    if s = "N" then .ok (some .N)
    else if s = "S" then .ok (some .S)
    else .error "Input should be 'N' or 'S'"

theorem geoidCheck_ok_iff (c : CRSCustom) :
    (∃ g, geoidCheck c = .ok g) ↔
      (c.z_mode = .orthometric → ∃ g, c.geoid_model = some g ∧ g ≠ "") := by
  constructor
  · rintro ⟨g0, hg⟩ hzm
    unfold geoidCheck at hg
    rw [hzm] at hg
    dsimp only at hg
    cases hgm : c.geoid_model with
    | none => rw [hgm] at hg; exact absurd hg (by simp)
    | some g =>
      rw [hgm] at hg
      dsimp only at hg
      by_cases hge : g = ""
      · rw [if_pos hge] at hg
        exact absurd hg (by simp)
      · exact ⟨g, rfl, hge⟩
  · intro h
    unfold geoidCheck
    cases hzm : c.z_mode with
    | ellipsoidal => exact ⟨none, rfl⟩
    | orthometric =>
      obtain ⟨g, hgm, hge⟩ := h hzm
      rw [hgm]
      dsimp only
      rw [if_neg hge]
      exact ⟨some g, rfl⟩

theorem normalize_utm_eval (fromEpsg : Int → String) (fromWkt : String → String)
    (fromJson : String → String)
    (mskProjJson : Rat → Rat → Rat → Rat → Rat → Option String → String)
    (presets : List (Int × MSKRegionPreset)) (c : CRSCustom)
    (hc : c.ccrs_type = .projection) (hz : c.zone_family = some .UTM)
    (geoid : Option String) (hg : geoidCheck c = .ok geoid) :
    normalize_crs_spec fromEpsg fromWkt fromJson mskProjJson presets (.custom c) =
      (if c.datum ≠ .WGS84
       then .error "UTM current model supports only datum='WGS84' (EPSG:326/327)"
       else
         match c.utm_zone, c.utm_hemisphere with
         | some z, some h =>
           if 1 ≤ z ∧ z ≤ 60 then
             .ok { crs_source := .custom, ccrs_type := some .projection,
                   datum := some c.datum, z_mode := some c.z_mode,
                   axis_order := some c.axis_order, geoid_model := geoid,
                   units := some .metre, zone_family := some .UTM,
                   utm_zone := some z, utm_hemisphere := some h,
                   built_crs_projjson :=
                     some (fromEpsg (if h = .N then 32600 + z else 32700 + z)) }
           else .error "utm_zone must be 1..60"
         | _, _ => .error "UTM requires utm_zone and utm_hemisphere") := by
  simp only [normalize_crs_spec]
  rw [hg]
  dsimp only
  rw [hc]
  dsimp only
  rw [hz]

/-- C7: for a custom descriptor with `ccrs_type = projection` and
`zone_family = UTM`, normalization succeeds exactly when `datum = WGS84`,
`utm_zone ∈ [1..60]`, a hemisphere is present, and the orthometric guard is
met; on success the CRS is built from EPSG `32600 + zone` for hemisphere `N`
and `32700 + zone` for `S` (so zones 0 and 61 are validation errors while 1
and 60 succeed); and the pydantic literal accepts exactly `"N"` and `"S"` as
hemispheres. -/
theorem normalize_crs_spec_utm (fromEpsg : Int → String) (fromWkt : String → String)
    (fromJson : String → String)
    (mskProjJson : Rat → Rat → Rat → Rat → Rat → Option String → String)
    (presets : List (Int × MSKRegionPreset)) (c : CRSCustom)
    (hc : c.ccrs_type = .projection) (hz : c.zone_family = some .UTM) :
    ((∃ r, normalize_crs_spec fromEpsg fromWkt fromJson mskProjJson presets
        (.custom c) = .ok r) ↔
      (c.datum = .WGS84 ∧ (∃ z, c.utm_zone = some z ∧ 1 ≤ z ∧ z ≤ 60) ∧
        c.utm_hemisphere.isSome = true ∧
        (c.z_mode = .orthometric → ∃ g, c.geoid_model = some g ∧ g ≠ ""))) ∧
    (∀ z h r, c.utm_zone = some z → c.utm_hemisphere = some h →
      normalize_crs_spec fromEpsg fromWkt fromJson mskProjJson presets
        (.custom c) = .ok r →
      r.built_crs_projjson = some (fromEpsg (if h = .N then 32600 + z else 32700 + z)) ∧
      r.units = some .metre ∧ r.zone_family = some .UTM ∧
      r.utm_zone = some z ∧ r.utm_hemisphere = some h) ∧
    (∀ s, (∃ h, parseHemisphere (some s) = .ok (some h)) ↔ (s = "N" ∨ s = "S")) := by
  refine ⟨?_, ?_, ?_⟩
  · constructor
    · rintro ⟨r, hr⟩
      cases hgc : geoidCheck c with
      | error e =>
        rw [show normalize_crs_spec fromEpsg fromWkt fromJson mskProjJson presets
            (.custom c) = .error e by simp only [normalize_crs_spec]; rw [hgc]] at hr
        exact absurd hr (by simp)
      | ok geoid =>
        rw [normalize_utm_eval fromEpsg fromWkt fromJson mskProjJson presets c hc hz
          geoid hgc] at hr
        by_cases hd : c.datum ≠ .WGS84
        · rw [if_pos hd] at hr
          exact absurd hr (by simp)
        · rw [if_neg hd] at hr
          push_neg at hd
          refine ⟨hd, ?_, ?_, (geoidCheck_ok_iff c).mp ⟨geoid, hgc⟩⟩ <;>
            (cases hzone : c.utm_zone with
             | none => rw [hzone] at hr; exact absurd hr (by simp)
             | some z =>
               cases hhemi : c.utm_hemisphere with
               | none => rw [hzone, hhemi] at hr; exact absurd hr (by simp)
               | some h =>
                 rw [hzone, hhemi] at hr
                 dsimp only at hr
                 by_cases hrange : 1 ≤ z ∧ z ≤ 60
                 · first
                   | exact ⟨z, rfl, hrange.1, hrange.2⟩
                   | rfl
                 · rw [if_neg hrange] at hr
                   exact absurd hr (by simp))
    · rintro ⟨hd, ⟨z, hzone, h1, h60⟩, hhemi, hortho⟩
      obtain ⟨geoid, hgc⟩ := (geoidCheck_ok_iff c).mpr hortho
      obtain ⟨h, hhemi'⟩ := Option.isSome_iff_exists.mp hhemi
      have hrec : normalize_crs_spec fromEpsg fromWkt fromJson mskProjJson presets
          (.custom c) = .ok { crs_source := .custom, ccrs_type := some .projection,
                              datum := some c.datum, z_mode := some c.z_mode,
                              axis_order := some c.axis_order, geoid_model := geoid,
                              units := some .metre, zone_family := some .UTM,
                              utm_zone := some z, utm_hemisphere := some h,
                              built_crs_projjson := some (fromEpsg
                                (if h = .N then 32600 + z else 32700 + z)) } := by
        rw [normalize_utm_eval fromEpsg fromWkt fromJson mskProjJson presets c hc hz
          geoid hgc]
        rw [if_neg (by simp [hd]), hzone, hhemi']
        dsimp only
        rw [if_pos ⟨h1, h60⟩]
      exact ⟨_, hrec⟩
  · intro z h r hzone hhemi hr
    cases hgc : geoidCheck c with
    | error e =>
      rw [show normalize_crs_spec fromEpsg fromWkt fromJson mskProjJson presets
          (.custom c) = .error e by simp only [normalize_crs_spec]; rw [hgc]] at hr
      exact absurd hr (by simp)
    | ok geoid =>
      rw [normalize_utm_eval fromEpsg fromWkt fromJson mskProjJson presets c hc hz
        geoid hgc] at hr
      by_cases hd : c.datum ≠ .WGS84
      · rw [if_pos hd] at hr
        exact absurd hr (by simp)
      · rw [if_neg hd, hzone, hhemi] at hr
        dsimp only at hr
        by_cases hrange : 1 ≤ z ∧ z ≤ 60
        · rw [if_pos hrange] at hr
          injection hr with hr'
          rw [← hr']
          exact ⟨rfl, rfl, rfl, rfl, rfl⟩
        · rw [if_neg hrange] at hr
          exact absurd hr (by simp)
  · intro s
    constructor
    · rintro ⟨h, hh⟩
      unfold parseHemisphere at hh
      dsimp only at hh
      by_cases h1 : s = "N"
      · exact Or.inl h1
      · by_cases h2 : s = "S"
        · exact Or.inr h2
        · rw [if_neg h1, if_neg h2] at hh
          exact absurd hh (by simp)
    · rintro (rfl | rfl)
      · exact ⟨.N, rfl⟩
      · exact ⟨.S, rfl⟩

/-- C7 (witness): zone 60 S with an ellipsoidal z-mode normalizes (to EPSG
32760), zone 1 N normalizes, and zones 0 and 61 are validation errors;
hemisphere parsing accepts `"S"`. -/
theorem normalize_crs_spec_utm_witness :
    (∃ r, normalize_crs_spec (fun n => "EPSG:" ++ n.repr) (fun w => w) (fun j => j)
      (fun _ _ _ _ _ _ => "") []
      (.custom { ccrs_type := .projection, datum := .WGS84, z_mode := .ellipsoidal,
                 axis_order := .ENU, zone_family := some .UTM, utm_zone := some 60,
                 utm_hemisphere := some .S }) = .ok r) ∧
    (∃ r, normalize_crs_spec (fun n => "EPSG:" ++ n.repr) (fun w => w) (fun j => j)
      (fun _ _ _ _ _ _ => "") []
      (.custom { ccrs_type := .projection, datum := .WGS84, z_mode := .ellipsoidal,
                 axis_order := .ENU, zone_family := some .UTM, utm_zone := some 1,
                 utm_hemisphere := some .N }) = .ok r) ∧
    ¬ (∃ r, normalize_crs_spec (fun n => "EPSG:" ++ n.repr) (fun w => w) (fun j => j)
      (fun _ _ _ _ _ _ => "") []
      (.custom { ccrs_type := .projection, datum := .WGS84, z_mode := .ellipsoidal,
                 axis_order := .ENU, zone_family := some .UTM, utm_zone := some 0,
                 utm_hemisphere := some .N }) = .ok r) ∧
    ¬ (∃ r, normalize_crs_spec (fun n => "EPSG:" ++ n.repr) (fun w => w) (fun j => j)
      (fun _ _ _ _ _ _ => "") []
      (.custom { ccrs_type := .projection, datum := .WGS84, z_mode := .ellipsoidal,
                 axis_order := .ENU, zone_family := some .UTM, utm_zone := some 61,
                 utm_hemisphere := some .S }) = .ok r) ∧
    (∃ h, parseHemisphere (some "S") = .ok (some h)) := by
  refine ⟨?_, ?_, ?_, ?_, ?_⟩
  · exact (normalize_crs_spec_utm (fun n => "EPSG:" ++ n.repr) (fun w => w) (fun j => j)
      (fun _ _ _ _ _ _ => "") [] _ rfl rfl).1.mpr
      ⟨rfl, ⟨60, rfl, by decide, by decide⟩, rfl, by intro hc; exact absurd hc (by decide)⟩
  · exact (normalize_crs_spec_utm (fun n => "EPSG:" ++ n.repr) (fun w => w) (fun j => j)
      (fun _ _ _ _ _ _ => "") [] _ rfl rfl).1.mpr
      ⟨rfl, ⟨1, rfl, by decide, by decide⟩, rfl, by intro hc; exact absurd hc (by decide)⟩
  · intro hex
    obtain ⟨_, ⟨z, hzone, h1, _⟩, _, _⟩ := (normalize_crs_spec_utm
      (fun n => "EPSG:" ++ n.repr) (fun w => w) (fun j => j)
      (fun _ _ _ _ _ _ => "") [] _ rfl rfl).1.mp hex
    injection hzone with hzone'
    rw [← hzone'] at h1
    exact absurd h1 (by decide)
  · intro hex
    obtain ⟨_, ⟨z, hzone, _, h60⟩, _, _⟩ := (normalize_crs_spec_utm
      (fun n => "EPSG:" ++ n.repr) (fun w => w) (fun j => j)
      (fun _ _ _ _ _ _ => "") [] _ rfl rfl).1.mp hex
    injection hzone with hzone'
    rw [← hzone'] at h60
    exact absurd h60 (by decide)
  · exact ((normalize_crs_spec_utm (fun n => "EPSG:" ++ n.repr) (fun w => w) (fun j => j)
      (fun _ _ _ _ _ _ => "") []
      { ccrs_type := .projection, datum := .WGS84, z_mode := .ellipsoidal,
        axis_order := .ENU, zone_family := some .UTM } rfl rfl).2.2 "S").mpr (Or.inr rfl)
